import Mathlib

/-!
# Verification of the pip-boy input subsystem

Shallow embedding of the input-module library (`common/src/packing.rs`,
`common/src/input.rs`, `common/src/input/{numpad,keypad,auxiliary,analog,other}.rs`,
`main-input/src/lib.rs`, `main-input/src/main.rs`) and proofs about its
packing codecs, merge policy, multi-tap selector and bus responder.

Modelling conventions:
* byte buffers (`&[u8]` / `&mut [u8]`) are `List Nat` whose elements are the
  byte values; a function taking `&mut [u8]` returns the final buffer next to
  its `Result`;
* machine integers are `Nat` with explicit `% 256` / `% 65536` wrap where the
  source can overflow;
* Rust slices `&buffer[a..b]` are `slice buffer a b`; `copy_from_slice` into
  `buffer[a..b]` is `copyRange buffer a b src`;
* loops that may fail to terminate are given explicit fuel; exhausting fuel,
  or reaching a loop state the Rust loop can never leave, is `diverge`.
-/

deriving instance DecidableEq for Except

namespace PipBoy

/-- `PackingError` from `common/src/packing.rs`. -/
inductive PackingError where
  | InvalidBufferSize
deriving DecidableEq, Repr

/-- The Rust slice `&buffer[a..b]`. -/
def slice (l : List Nat) (a b : Nat) : List Nat := (l.drop a).take (b - a)

/-- `buffer[a..b].copy_from_slice(&src)` (callers always pass `src` of length `b - a`). -/
def copyRange (buffer : List Nat) (a b : Nat) (src : List Nat) : List Nat :=
  buffer.take a ++ src ++ buffer.drop b

/-- An eight-flag byte `((b7 as u8) << 7) | ((b6 as u8) << 6) | ... | (b0 as u8)`,
the pattern used throughout the fixed-field packers. -/
def byte8 (b7 b6 b5 b4 b3 b2 b1 b0 : Bool) : Nat :=
  (b7.toNat <<< 7) ||| (b6.toNat <<< 6) ||| (b5.toNat <<< 5) ||| (b4.toNat <<< 4) |||
  (b3.toNat <<< 3) ||| (b2.toNat <<< 2) ||| (b1.toNat <<< 1) ||| b0.toNat

/-- A two-flag byte `((b7 as u8) << 7) | ((b6 as u8) << 6)` (numpad byte 1). -/
def byte2 (b7 b6 : Bool) : Nat := (b7.toNat <<< 7) ||| (b6.toNat <<< 6)

/-- A five-flag byte `((b7 as u8) << 7) | ... | ((b3 as u8) << 3)` (keypad byte 3). -/
def byte5 (b7 b6 b5 b4 b3 : Bool) : Nat :=
  (b7.toNat <<< 7) ||| (b6.toNat <<< 6) ||| (b5.toNat <<< 5) ||| (b4.toNat <<< 4) |||
  (b3.toNat <<< 3)

/-- `u16::to_le_bytes` (`v < 65536` for every Rust `u16`). -/
def u16le (v : Nat) : List Nat := [v % 256, v / 256 % 256]

/-- `u16::from_le_bytes` of a two-byte slice. -/
def u16fromLE (l : List Nat) : Nat := l[0]! + 256 * l[1]!

/-- `Numpad` from `common/src/input/numpad.rs`. -/
structure Numpad where
  zero : Bool
  one : Bool
  two : Bool
  three : Bool
  four : Bool
  five : Bool
  six : Bool
  seven : Bool
  eight : Bool
  nine : Bool
deriving DecidableEq, Repr

/-- `Numpad::default()`: all flags false. -/
def Numpad.default : Numpad :=
  ⟨false, false, false, false, false, false, false, false, false, false⟩

instance : Inhabited Numpad := ⟨Numpad.default⟩

/-- `impl Pack for Numpad`. -/
def Numpad.pack (s : Numpad) (buffer : List Nat) : Except PackingError Unit × List Nat :=
  if buffer.length < 2 then (.error .InvalidBufferSize, buffer)
  else
    (.ok (),
      (buffer.set 0 (byte8 s.zero s.one s.two s.three s.four s.five s.six s.seven)).set 1
        (byte2 s.eight s.nine))

/-- `impl Unpack for Numpad`. -/
def Numpad.unpack (buffer : List Nat) : Except PackingError Numpad :=
  if buffer.length < 2 then .error .InvalidBufferSize
  else
    .ok
      { zero := buffer[0]! &&& (1 <<< 7) != 0
        one := buffer[0]! &&& (1 <<< 6) != 0
        two := buffer[0]! &&& (1 <<< 5) != 0
        three := buffer[0]! &&& (1 <<< 4) != 0
        four := buffer[0]! &&& (1 <<< 3) != 0
        five := buffer[0]! &&& (1 <<< 2) != 0
        six := buffer[0]! &&& (1 <<< 1) != 0
        seven := buffer[0]! &&& 1 != 0
        eight := buffer[1]! &&& (1 <<< 7) != 0
        nine := buffer[1]! &&& (1 <<< 6) != 0 }

/-- `impl BitOr for Numpad`. -/
def Numpad.bitor (s rhs : Numpad) : Numpad :=
  { zero := s.zero || rhs.zero
    one := s.one || rhs.one
    two := s.two || rhs.two
    three := s.three || rhs.three
    four := s.four || rhs.four
    five := s.five || rhs.five
    six := s.six || rhs.six
    seven := s.seven || rhs.seven
    eight := s.eight || rhs.eight
    nine := s.nine || rhs.nine }

theorem byte8_bit7 (b7 b6 b5 b4 b3 b2 b1 b0 : Bool) :
    (byte8 b7 b6 b5 b4 b3 b2 b1 b0 &&& (1 <<< 7) != 0) = b7 := by
  cases b7 <;> cases b6 <;> cases b5 <;> cases b4 <;> cases b3 <;> cases b2 <;> cases b1 <;>
    cases b0 <;> rfl

theorem byte8_bit6 (b7 b6 b5 b4 b3 b2 b1 b0 : Bool) :
    (byte8 b7 b6 b5 b4 b3 b2 b1 b0 &&& (1 <<< 6) != 0) = b6 := by
  cases b7 <;> cases b6 <;> cases b5 <;> cases b4 <;> cases b3 <;> cases b2 <;> cases b1 <;>
    cases b0 <;> rfl

theorem byte8_bit5 (b7 b6 b5 b4 b3 b2 b1 b0 : Bool) :
    (byte8 b7 b6 b5 b4 b3 b2 b1 b0 &&& (1 <<< 5) != 0) = b5 := by
  cases b7 <;> cases b6 <;> cases b5 <;> cases b4 <;> cases b3 <;> cases b2 <;> cases b1 <;>
    cases b0 <;> rfl

theorem byte8_bit4 (b7 b6 b5 b4 b3 b2 b1 b0 : Bool) :
    (byte8 b7 b6 b5 b4 b3 b2 b1 b0 &&& (1 <<< 4) != 0) = b4 := by
  cases b7 <;> cases b6 <;> cases b5 <;> cases b4 <;> cases b3 <;> cases b2 <;> cases b1 <;>
    cases b0 <;> rfl

theorem byte8_bit3 (b7 b6 b5 b4 b3 b2 b1 b0 : Bool) :
    (byte8 b7 b6 b5 b4 b3 b2 b1 b0 &&& (1 <<< 3) != 0) = b3 := by
  cases b7 <;> cases b6 <;> cases b5 <;> cases b4 <;> cases b3 <;> cases b2 <;> cases b1 <;>
    cases b0 <;> rfl

theorem byte8_bit2 (b7 b6 b5 b4 b3 b2 b1 b0 : Bool) :
    (byte8 b7 b6 b5 b4 b3 b2 b1 b0 &&& (1 <<< 2) != 0) = b2 := by
  cases b7 <;> cases b6 <;> cases b5 <;> cases b4 <;> cases b3 <;> cases b2 <;> cases b1 <;>
    cases b0 <;> rfl

theorem byte8_bit1 (b7 b6 b5 b4 b3 b2 b1 b0 : Bool) :
    (byte8 b7 b6 b5 b4 b3 b2 b1 b0 &&& (1 <<< 1) != 0) = b1 := by
  cases b7 <;> cases b6 <;> cases b5 <;> cases b4 <;> cases b3 <;> cases b2 <;> cases b1 <;>
    cases b0 <;> rfl

theorem byte8_bit0 (b7 b6 b5 b4 b3 b2 b1 b0 : Bool) :
    (byte8 b7 b6 b5 b4 b3 b2 b1 b0 &&& 1 != 0) = b0 := by
  cases b7 <;> cases b6 <;> cases b5 <;> cases b4 <;> cases b3 <;> cases b2 <;> cases b1 <;>
    cases b0 <;> rfl

theorem byte2_bit7 (b7 b6 : Bool) : (byte2 b7 b6 &&& (1 <<< 7) != 0) = b7 := by
  cases b7 <;> cases b6 <;> rfl

theorem byte2_bit6 (b7 b6 : Bool) : (byte2 b7 b6 &&& (1 <<< 6) != 0) = b6 := by
  cases b7 <;> cases b6 <;> rfl

theorem byte5_bit7 (b7 b6 b5 b4 b3 : Bool) : (byte5 b7 b6 b5 b4 b3 &&& (1 <<< 7) != 0) = b7 := by
  cases b7 <;> cases b6 <;> cases b5 <;> cases b4 <;> cases b3 <;> rfl

theorem byte5_bit6 (b7 b6 b5 b4 b3 : Bool) : (byte5 b7 b6 b5 b4 b3 &&& (1 <<< 6) != 0) = b6 := by
  cases b7 <;> cases b6 <;> cases b5 <;> cases b4 <;> cases b3 <;> rfl

theorem byte5_bit5 (b7 b6 b5 b4 b3 : Bool) : (byte5 b7 b6 b5 b4 b3 &&& (1 <<< 5) != 0) = b5 := by
  cases b7 <;> cases b6 <;> cases b5 <;> cases b4 <;> cases b3 <;> rfl

theorem byte5_bit4 (b7 b6 b5 b4 b3 : Bool) : (byte5 b7 b6 b5 b4 b3 &&& (1 <<< 4) != 0) = b4 := by
  cases b7 <;> cases b6 <;> cases b5 <;> cases b4 <;> cases b3 <;> rfl

theorem byte5_bit3 (b7 b6 b5 b4 b3 : Bool) : (byte5 b7 b6 b5 b4 b3 &&& (1 <<< 3) != 0) = b3 := by
  cases b7 <;> cases b6 <;> cases b5 <;> cases b4 <;> cases b3 <;> rfl

set_option maxRecDepth 4000 in
theorem byte8_recon :
    ∀ n, n < 256 →
      byte8 (n &&& (1 <<< 7) != 0) (n &&& (1 <<< 6) != 0) (n &&& (1 <<< 5) != 0)
        (n &&& (1 <<< 4) != 0) (n &&& (1 <<< 3) != 0) (n &&& (1 <<< 2) != 0)
        (n &&& (1 <<< 1) != 0) (n &&& 1 != 0) = n := by
  decide

set_option maxRecDepth 4000 in
theorem byte2_recon :
    ∀ n, n < 256 → n &&& 63 = 0 →
      byte2 (n &&& (1 <<< 7) != 0) (n &&& (1 <<< 6) != 0) = n := by
  decide

set_option maxRecDepth 4000 in
theorem byte5_recon :
    ∀ n, n < 256 → n &&& 7 = 0 →
      byte5 (n &&& (1 <<< 7) != 0) (n &&& (1 <<< 6) != 0) (n &&& (1 <<< 5) != 0)
        (n &&& (1 <<< 4) != 0) (n &&& (1 <<< 3) != 0) = n := by
  decide

theorem u16le_roundtrip (v : Nat) (h : v < 65536) : u16fromLE (u16le v) = v := by
  simp only [u16le, u16fromLE, List.getElem!_cons_zero, List.getElem!_cons_succ]
  omega

theorem u16fromLE_lt (b0 b1 : Nat) (h0 : b0 < 256) (h1 : b1 < 256) :
    u16fromLE [b0, b1] < 65536 := by
  simp only [u16fromLE, List.getElem!_cons_zero, List.getElem!_cons_succ]
  omega

theorem u16le_fromLE (b0 b1 : Nat) (h0 : b0 < 256) (h1 : b1 < 256) :
    u16le (u16fromLE [b0, b1]) = [b0, b1] := by
  simp only [u16le, u16fromLE, List.getElem!_cons_zero, List.getElem!_cons_succ]
  have e0 : (b0 + 256 * b1) % 256 = b0 := by omega
  have e1 : (b0 + 256 * b1) / 256 % 256 = b1 := by omega
  rw [e0, e1]

/-- `Keypad` from `common/src/input/keypad.rs` (a..z + shift + enter + backspace). -/
structure Keypad where
  shift : Bool
  enter : Bool
  backspace : Bool
  a : Bool
  b : Bool
  c : Bool
  d : Bool
  e : Bool
  f : Bool
  g : Bool
  h : Bool
  i : Bool
  j : Bool
  k : Bool
  l : Bool
  m : Bool
  n : Bool
  o : Bool
  p : Bool
  q : Bool
  r : Bool
  s : Bool
  t : Bool
  u : Bool
  v : Bool
  w : Bool
  x : Bool
  y : Bool
  z : Bool
deriving DecidableEq, Repr

/-- `Keypad::default()`: all flags false. -/
def Keypad.default : Keypad :=
  ⟨false, false, false, false, false, false, false, false, false, false, false, false, false,
    false, false, false, false, false, false, false, false, false, false, false, false, false,
    false, false, false⟩

instance : Inhabited Keypad := ⟨Keypad.default⟩

/-- `impl Pack for Keypad`. -/
def Keypad.pack (s : Keypad) (buffer : List Nat) : Except PackingError Unit × List Nat :=
  if buffer.length < 4 then (.error .InvalidBufferSize, buffer)
  else
    (.ok (),
      ((((buffer.set 0 (byte8 s.shift s.a s.b s.c s.d s.e s.f s.g)).set 1
            (byte8 s.h s.i s.j s.k s.l s.m s.n s.o)).set 2
          (byte8 s.p s.q s.r s.s s.t s.u s.v s.w)).set 3
        (byte5 s.x s.y s.z s.enter s.backspace)))

/-- `impl Unpack for Keypad`. -/
def Keypad.unpack (buffer : List Nat) : Except PackingError Keypad :=
  if buffer.length < 4 then .error .InvalidBufferSize
  else
    .ok
      { shift := buffer[0]! &&& (1 <<< 7) != 0
        a := buffer[0]! &&& (1 <<< 6) != 0
        b := buffer[0]! &&& (1 <<< 5) != 0
        c := buffer[0]! &&& (1 <<< 4) != 0
        d := buffer[0]! &&& (1 <<< 3) != 0
        e := buffer[0]! &&& (1 <<< 2) != 0
        f := buffer[0]! &&& (1 <<< 1) != 0
        g := buffer[0]! &&& 1 != 0
        h := buffer[1]! &&& (1 <<< 7) != 0
        i := buffer[1]! &&& (1 <<< 6) != 0
        j := buffer[1]! &&& (1 <<< 5) != 0
        k := buffer[1]! &&& (1 <<< 4) != 0
        l := buffer[1]! &&& (1 <<< 3) != 0
        m := buffer[1]! &&& (1 <<< 2) != 0
        n := buffer[1]! &&& (1 <<< 1) != 0
        o := buffer[1]! &&& 1 != 0
        p := buffer[2]! &&& (1 <<< 7) != 0
        q := buffer[2]! &&& (1 <<< 6) != 0
        r := buffer[2]! &&& (1 <<< 5) != 0
        s := buffer[2]! &&& (1 <<< 4) != 0
        t := buffer[2]! &&& (1 <<< 3) != 0
        u := buffer[2]! &&& (1 <<< 2) != 0
        v := buffer[2]! &&& (1 <<< 1) != 0
        w := buffer[2]! &&& 1 != 0
        x := buffer[3]! &&& (1 <<< 7) != 0
        y := buffer[3]! &&& (1 <<< 6) != 0
        z := buffer[3]! &&& (1 <<< 5) != 0
        enter := buffer[3]! &&& (1 <<< 4) != 0
        backspace := buffer[3]! &&& (1 <<< 3) != 0 }

/-- `impl BitOr for Keypad`, exactly as written in the source: the fields `b`
through `s` of the result OR the *left operand's `a` flag* with the right
operand's same-named flag. -/
def Keypad.bitor (s rhs : Keypad) : Keypad :=
  { shift := s.shift || rhs.shift
    a := s.a || rhs.a
    b := s.a || rhs.b
    c := s.a || rhs.c
    d := s.a || rhs.d
    e := s.a || rhs.e
    f := s.a || rhs.f
    g := s.a || rhs.g
    h := s.a || rhs.h
    i := s.a || rhs.i
    j := s.a || rhs.j
    k := s.a || rhs.k
    l := s.a || rhs.l
    m := s.a || rhs.m
    n := s.a || rhs.n
    o := s.a || rhs.o
    p := s.a || rhs.p
    q := s.a || rhs.q
    r := s.a || rhs.r
    s := s.a || rhs.s
    t := s.t || rhs.t
    u := s.u || rhs.u
    v := s.v || rhs.v
    w := s.w || rhs.w
    x := s.x || rhs.x
    y := s.y || rhs.y
    z := s.z || rhs.z
    enter := s.enter || rhs.enter
    backspace := s.backspace || rhs.backspace }

/-- `Auxiliary` from `common/src/input/auxiliary.rs`.  The Rust field `at` is a
Lean keyword; it is rendered `atSign` here, all other field names are kept. -/
structure Auxiliary where
  exclamation : Bool
  atSign : Bool
  hash : Bool
  dollar : Bool
  percent : Bool
  caret : Bool
  and : Bool
  star : Bool
  left_paren : Bool
  right_paren : Bool
  minus : Bool
  underscore : Bool
  plus : Bool
  equal : Bool
  backtick : Bool
  tilde : Bool
  left_square : Bool
  right_square : Bool
  left_curly : Bool
  right_curly : Bool
  backslash : Bool
  pipe : Bool
  semicolon : Bool
  colon : Bool
  single_quote : Bool
  double_quote : Bool
  comma : Bool
  period : Bool
  less_than : Bool
  greater_than : Bool
  forwardslash : Bool
  question : Bool
deriving DecidableEq, Repr

/-- `Auxiliary::default()`: all flags false. -/
def Auxiliary.default : Auxiliary :=
  ⟨false, false, false, false, false, false, false, false, false, false, false, false, false,
    false, false, false, false, false, false, false, false, false, false, false, false, false,
    false, false, false, false, false, false⟩

instance : Inhabited Auxiliary := ⟨Auxiliary.default⟩

/-- `impl Pack for Auxiliary`. -/
def Auxiliary.pack (s : Auxiliary) (buffer : List Nat) : Except PackingError Unit × List Nat :=
  if buffer.length < 4 then (.error .InvalidBufferSize, buffer)
  else
    (.ok (),
      ((((buffer.set 0
            (byte8 s.exclamation s.atSign s.hash s.dollar s.percent s.caret s.and s.star)).set 1
            (byte8 s.left_paren s.right_paren s.minus s.underscore s.plus s.equal s.backtick
              s.tilde)).set 2
          (byte8 s.left_square s.right_square s.left_curly s.right_curly s.backslash s.pipe
            s.semicolon s.colon)).set 3
        (byte8 s.single_quote s.double_quote s.comma s.period s.less_than s.greater_than
          s.forwardslash s.question)))

/-- `impl Unpack for Auxiliary`. -/
def Auxiliary.unpack (buffer : List Nat) : Except PackingError Auxiliary :=
  if buffer.length < 4 then .error .InvalidBufferSize
  else
    .ok
      { exclamation := buffer[0]! &&& (1 <<< 7) != 0
        atSign := buffer[0]! &&& (1 <<< 6) != 0
        hash := buffer[0]! &&& (1 <<< 5) != 0
        dollar := buffer[0]! &&& (1 <<< 4) != 0
        percent := buffer[0]! &&& (1 <<< 3) != 0
        caret := buffer[0]! &&& (1 <<< 2) != 0
        and := buffer[0]! &&& (1 <<< 1) != 0
        star := buffer[0]! &&& 1 != 0
        left_paren := buffer[1]! &&& (1 <<< 7) != 0
        right_paren := buffer[1]! &&& (1 <<< 6) != 0
        minus := buffer[1]! &&& (1 <<< 5) != 0
        underscore := buffer[1]! &&& (1 <<< 4) != 0
        plus := buffer[1]! &&& (1 <<< 3) != 0
        equal := buffer[1]! &&& (1 <<< 2) != 0
        backtick := buffer[1]! &&& (1 <<< 1) != 0
        tilde := buffer[1]! &&& 1 != 0
        left_square := buffer[2]! &&& (1 <<< 7) != 0
        right_square := buffer[2]! &&& (1 <<< 6) != 0
        left_curly := buffer[2]! &&& (1 <<< 5) != 0
        right_curly := buffer[2]! &&& (1 <<< 4) != 0
        backslash := buffer[2]! &&& (1 <<< 3) != 0
        pipe := buffer[2]! &&& (1 <<< 2) != 0
        semicolon := buffer[2]! &&& (1 <<< 1) != 0
        colon := buffer[2]! &&& 1 != 0
        single_quote := buffer[3]! &&& (1 <<< 7) != 0
        double_quote := buffer[3]! &&& (1 <<< 6) != 0
        comma := buffer[3]! &&& (1 <<< 5) != 0
        period := buffer[3]! &&& (1 <<< 4) != 0
        less_than := buffer[3]! &&& (1 <<< 3) != 0
        greater_than := buffer[3]! &&& (1 <<< 2) != 0
        forwardslash := buffer[3]! &&& (1 <<< 1) != 0
        question := buffer[3]! &&& 1 != 0 }

/-- `impl BitOr for Auxiliary` (field order as in the source; every flag ORs
with its own counterpart). -/
def Auxiliary.bitor (s rhs : Auxiliary) : Auxiliary :=
  { exclamation := s.exclamation || rhs.exclamation
    atSign := s.atSign || rhs.atSign
    hash := s.hash || rhs.hash
    dollar := s.dollar || rhs.dollar
    percent := s.percent || rhs.percent
    caret := s.caret || rhs.caret
    and := s.and || rhs.and
    star := s.star || rhs.star
    left_curly := s.left_curly || rhs.left_curly
    right_curly := s.right_curly || rhs.right_curly
    right_paren := s.right_paren || rhs.right_paren
    left_paren := s.left_paren || rhs.left_paren
    minus := s.minus || rhs.minus
    underscore := s.underscore || rhs.underscore
    plus := s.plus || rhs.plus
    equal := s.equal || rhs.equal
    backslash := s.backslash || rhs.backslash
    backtick := s.backtick || rhs.backtick
    tilde := s.tilde || rhs.tilde
    left_square := s.left_square || rhs.left_square
    right_square := s.right_square || rhs.right_square
    pipe := s.pipe || rhs.pipe
    semicolon := s.semicolon || rhs.semicolon
    colon := s.colon || rhs.colon
    single_quote := s.single_quote || rhs.single_quote
    double_quote := s.double_quote || rhs.double_quote
    comma := s.comma || rhs.comma
    period := s.period || rhs.period
    less_than := s.less_than || rhs.less_than
    greater_than := s.greater_than || rhs.greater_than
    forwardslash := s.forwardslash || rhs.forwardslash
    question := s.question || rhs.question }

/-- `AnalogInputs` from `common/src/input/analog.rs` (six `u16` channels). -/
structure AnalogInputs where
  a0 : Nat
  a1 : Nat
  a2 : Nat
  a3 : Nat
  a4 : Nat
  a5 : Nat
deriving DecidableEq, Repr

/-- `AnalogInputs::default()`: all channels zero. -/
def AnalogInputs.default : AnalogInputs := ⟨0, 0, 0, 0, 0, 0⟩

instance : Inhabited AnalogInputs := ⟨AnalogInputs.default⟩

/-- The `u16` range invariant every Rust `AnalogInputs` value satisfies. -/
def AnalogInputs.Valid (s : AnalogInputs) : Prop :=
  s.a0 < 65536 ∧ s.a1 < 65536 ∧ s.a2 < 65536 ∧ s.a3 < 65536 ∧ s.a4 < 65536 ∧ s.a5 < 65536

instance (s : AnalogInputs) : Decidable s.Valid := by
  unfold AnalogInputs.Valid
  infer_instance

/-- `impl Pack for AnalogInputs`. -/
def AnalogInputs.pack (s : AnalogInputs) (buffer : List Nat) :
    Except PackingError Unit × List Nat :=
  if buffer.length < 12 then (.error .InvalidBufferSize, buffer)
  else
    (.ok (),
      copyRange
        (copyRange
          (copyRange
            (copyRange (copyRange (copyRange buffer 0 2 (u16le s.a0)) 2 4 (u16le s.a1)) 4 6
              (u16le s.a2))
            6 8 (u16le s.a3))
          8 10 (u16le s.a4))
        10 12 (u16le s.a5))

/-- `impl Unpack for AnalogInputs`. -/
def AnalogInputs.unpack (buffer : List Nat) : Except PackingError AnalogInputs :=
  if buffer.length < 12 then .error .InvalidBufferSize
  else
    .ok
      { a0 := u16fromLE (slice buffer 0 2)
        a1 := u16fromLE (slice buffer 2 4)
        a2 := u16fromLE (slice buffer 4 6)
        a3 := u16fromLE (slice buffer 6 8)
        a4 := u16fromLE (slice buffer 8 10)
        a5 := u16fromLE (slice buffer 10 12) }

/-- `Input` from `common/src/input.rs`: the combined input state.  The two
`OtherInput` payloads (`[u8; 24]`) are byte lists of length 24. -/
structure Input where
  numpad : Numpad
  keypad : Keypad
  auxiliary : Auxiliary
  analog : AnalogInputs
  other_input_one : List Nat
  other_input_two : List Nat
deriving DecidableEq, Repr

/-- `Input::default()`. -/
def Input.default : Input :=
  { numpad := Numpad.default
    keypad := Keypad.default
    auxiliary := Auxiliary.default
    analog := AnalogInputs.default
    other_input_one := List.replicate 24 0
    other_input_two := List.replicate 24 0 }

instance : Inhabited Input := ⟨Input.default⟩

/-- The invariant every Rust `Input` value satisfies by its types: analog
channels are `u16`, the other-input payloads are 24 `u8` bytes. -/
def Input.Valid (s : Input) : Prop :=
  s.analog.Valid ∧
    s.other_input_one.length = 24 ∧ (∀ x ∈ s.other_input_one, x < 256) ∧
      s.other_input_two.length = 24 ∧ ∀ x ∈ s.other_input_two, x < 256

instance (s : Input) : Decidable s.Valid := by
  unfold Input.Valid
  infer_instance

/-- `v.pack(&mut buffer[a..b])?`: run a sub-packer on the slice `[a..b)` of the
buffer and splice its result back, propagating its verdict. -/
def sliceMap (buffer : List Nat) (a b : Nat)
    (f : List Nat → Except PackingError Unit × List Nat) :
    Except PackingError Unit × List Nat :=
  match f (slice buffer a b) with
  | (r, s) => (r, buffer.take a ++ s ++ buffer.drop b)

/-- `impl Pack for Input`. -/
def Input.pack (inp : Input) (buffer : List Nat) : Except PackingError Unit × List Nat :=
  if buffer.length < 71 then (.error .InvalidBufferSize, buffer)
  else
    match sliceMap buffer 0 2 inp.numpad.pack with
    | (.error e, b) => (.error e, b)
    | (.ok _, b) =>
      match sliceMap b 2 6 inp.keypad.pack with
      | (.error e, b) => (.error e, b)
      | (.ok _, b) =>
        match sliceMap b 6 10 inp.auxiliary.pack with
        | (.error e, b) => (.error e, b)
        | (.ok _, b) =>
          match sliceMap b 10 22 inp.analog.pack with
          | (.error e, b) => (.error e, b)
          | (.ok _, b) =>
            (.ok (),
              copyRange (copyRange b 22 46 inp.other_input_one) 46 70 inp.other_input_two)

/-- `impl Unpack for Input`. -/
def Input.unpack (buffer : List Nat) : Except PackingError Input :=
  if buffer.length < 71 then .error .InvalidBufferSize
  else
    match Numpad.unpack (slice buffer 0 2) with
    | .error e => .error e
    | .ok numpad =>
      match Keypad.unpack (slice buffer 2 6) with
      | .error e => .error e
      | .ok keypad =>
        match Auxiliary.unpack (slice buffer 6 10) with
        | .error e => .error e
        | .ok auxiliary =>
          match AnalogInputs.unpack (slice buffer 10 22) with
          | .error e => .error e
          | .ok analog =>
            .ok
              { numpad := numpad
                keypad := keypad
                auxiliary := auxiliary
                analog := analog
                other_input_one := slice buffer 22 46
                other_input_two := slice buffer 46 70 }

/-- `impl BitOr for Input`: OR the three flag groups, keep the left operand's
analog bank and other-input payloads. -/
def Input.bitor (s rhs : Input) : Input :=
  { numpad := s.numpad.bitor rhs.numpad
    keypad := s.keypad.bitor rhs.keypad
    auxiliary := s.auxiliary.bitor rhs.auxiliary
    analog := s.analog
    other_input_one := s.other_input_one
    other_input_two := s.other_input_two }

/-- Outcome of running a fallible, possibly non-terminating unpacking routine:
`ok`/`err` mirror `Result`, `panicked` marks an out-of-bounds slice index, and
`diverge` marks a loop state the Rust loop can never leave (it spins forever). -/
inductive RunResult (α : Type) where
  | ok (value : α)
  | err (e : PackingError)
  | panicked
  | diverge
deriving DecidableEq, Repr

/-- `DataSize` from `common/src/input/other.rs`. -/
inductive DataSize where
  | One
  | Two
  | Four
  | Eight
deriving DecidableEq, Repr

instance : Inhabited DataSize := ⟨DataSize.One⟩

/-- The numeric value of a `DataSize` (`data_size as usize`). -/
def DataSize.bytes : DataSize → Nat
  | .One => 1
  | .Two => 2
  | .Four => 4
  | .Eight => 8

/-- `DataType` from `common/src/input/other.rs`. -/
inductive DataType where
  | Unsigned
  | Signed
  | Floating
deriving DecidableEq, Repr

instance : Inhabited DataType := ⟨DataType.Unsigned⟩

/-- The `for data_size in self { ... }` loop body of `impl Pack for [DataSize; 24]`,
accumulating `(value, bit_index, cumulative_length)` and breaking once the
cumulative byte length reaches 24. -/
def packSizesLoop : List DataSize → Nat → Nat → Nat → Nat × Nat × Nat
  | [], value, bit_index, cumulative_length => (value, bit_index, cumulative_length)
  | data_size :: rest, value, bit_index, cumulative_length =>
    if 24 ≤ cumulative_length then (value, bit_index, cumulative_length)
    else
      match data_size with
      | .One =>
        packSizesLoop rest (value ||| (1 <<< bit_index)) (bit_index + 1) (cumulative_length + 1)
      | .Two =>
        packSizesLoop rest (value ||| (1 <<< (bit_index + 1))) (bit_index + 2)
          (cumulative_length + 2)
      | .Four =>
        packSizesLoop rest (value ||| (1 <<< (bit_index + 2))) (bit_index + 3)
          (cumulative_length + 4)
      | .Eight =>
        packSizesLoop rest (value ||| (1 <<< (bit_index + 3))) (bit_index + 4)
          (cumulative_length + 8)

/-- `impl Pack for [DataSize; 24]`: the accumulated `u32` value's low three
little-endian bytes are copied into `buffer[0..3]`. -/
def dataSizesPack (sizes : List DataSize) (buffer : List Nat) :
    Except PackingError Unit × List Nat :=
  if buffer.length < 3 then (.error .InvalidBufferSize, buffer)
  else
    let value := (packSizesLoop sizes 0 0 0).1
    (.ok (), copyRange buffer 0 3 [value % 256, value / 256 % 256, value / 65536 % 256])

/-- The `while cumulative_length < 24` loop of `impl Unpack for [DataSize; 24]`.
One unit of fuel is one loop iteration; an iteration in which none of the four
bit patterns matches leaves the state unchanged, exactly as in the source,
where such a state spins forever. -/
def unpackSizesLoop (data : Nat) :
    Nat → List DataSize → Nat → Nat → Nat → Option (List DataSize × Nat × Nat × Nat)
  | 0, data_sizes, data_sizes_index, bit_index, cumulative_length =>
    if 24 ≤ cumulative_length then
      some (data_sizes, data_sizes_index, bit_index, cumulative_length)
    else none
  | fuel + 1, data_sizes, data_sizes_index, bit_index, cumulative_length =>
    if 24 ≤ cumulative_length then
      some (data_sizes, data_sizes_index, bit_index, cumulative_length)
    else if data &&& (15 <<< bit_index) = 8 <<< bit_index then
      unpackSizesLoop data fuel (data_sizes.set data_sizes_index .Eight)
        (data_sizes_index + 1) (bit_index + 4) (cumulative_length + 8)
    else if data &&& (7 <<< bit_index) = 4 <<< bit_index then
      unpackSizesLoop data fuel (data_sizes.set data_sizes_index .Four)
        (data_sizes_index + 1) (bit_index + 3) (cumulative_length + 4)
    else if data &&& (3 <<< bit_index) = 2 <<< bit_index then
      unpackSizesLoop data fuel (data_sizes.set data_sizes_index .Two)
        (data_sizes_index + 1) (bit_index + 2) (cumulative_length + 2)
    else if data &&& (1 <<< bit_index) = 1 <<< bit_index then
      unpackSizesLoop data fuel (data_sizes.set data_sizes_index .One)
        (data_sizes_index + 1) (bit_index + 1) (cumulative_length + 1)
    else unpackSizesLoop data fuel data_sizes data_sizes_index bit_index cumulative_length

/-- `impl Unpack for [DataSize; 24]`.  Every productive iteration raises the
cumulative length by at least one, and an unproductive iteration repeats
forever, so fuel 24 is exact: `diverge` if and only if the Rust loop never
terminates. -/
def dataSizesUnpack (buffer : List Nat) : RunResult (List DataSize) :=
  if buffer.length < 3 then .err .InvalidBufferSize
  else
    let data := buffer[0]! + buffer[1]! * 256 + buffer[2]! * 65536
    match unpackSizesLoop data 24 (List.replicate 24 .One) 0 0 0 with
    | some (data_sizes, _, _, _) => .ok data_sizes
    | none => .diverge

/-- The `for data_type in self { ... }` loop of `impl Pack for [DataType; 24]`,
breaking once the bit index reaches 24. -/
def packTypesLoop : List DataType → Nat → Nat → Nat × Nat
  | [], value, bit_index => (value, bit_index)
  | data_type :: rest, value, bit_index =>
    if 24 ≤ bit_index then (value, bit_index)
    else
      match data_type with
      | .Unsigned => packTypesLoop rest (value ||| (1 <<< bit_index)) (bit_index + 1)
      | .Signed => packTypesLoop rest (value ||| (1 <<< (bit_index + 1))) (bit_index + 2)
      | .Floating => packTypesLoop rest (value ||| (1 <<< (bit_index + 2))) (bit_index + 3)

/-- `impl Pack for [DataType; 24]`. -/
def dataTypesPack (types : List DataType) (buffer : List Nat) :
    Except PackingError Unit × List Nat :=
  if buffer.length < 3 then (.error .InvalidBufferSize, buffer)
  else
    let value := (packTypesLoop types 0 0).1
    (.ok (), copyRange buffer 0 3 [value % 256, value / 256 % 256, value / 65536 % 256])

/-- The `while bit_index < 24` loop of `impl Unpack for [DataType; 24]`, with
the same fuel discipline as `unpackSizesLoop`. -/
def unpackTypesLoop (data : Nat) :
    Nat → List DataType → Nat → Nat → Option (List DataType × Nat × Nat)
  | 0, data_types, data_types_index, bit_index =>
    if 24 ≤ bit_index then some (data_types, data_types_index, bit_index) else none
  | fuel + 1, data_types, data_types_index, bit_index =>
    if 24 ≤ bit_index then some (data_types, data_types_index, bit_index)
    else if data &&& (7 <<< bit_index) = 4 <<< bit_index then
      unpackTypesLoop data fuel (data_types.set data_types_index .Floating)
        (data_types_index + 1) (bit_index + 3)
    else if data &&& (3 <<< bit_index) = 2 <<< bit_index then
      unpackTypesLoop data fuel (data_types.set data_types_index .Signed)
        (data_types_index + 1) (bit_index + 2)
    else if data &&& (1 <<< bit_index) = 1 <<< bit_index then
      unpackTypesLoop data fuel (data_types.set data_types_index .Unsigned)
        (data_types_index + 1) (bit_index + 1)
    else unpackTypesLoop data fuel data_types data_types_index bit_index

/-- `impl Unpack for [DataType; 24]` (fuel 24 is exact, as for the sizes). -/
def dataTypesUnpack (buffer : List Nat) : RunResult (List DataType) :=
  if buffer.length < 3 then .err .InvalidBufferSize
  else
    let data := buffer[0]! + buffer[1]! * 256 + buffer[2]! * 65536
    match unpackTypesLoop data 24 (List.replicate 24 .Unsigned) 0 0 with
    | some (data_types, _, _) => .ok data_types
    | none => .diverge

/-- `DecodeInstructions` from `common/src/input/other.rs`; the fixed arrays
`[DataSize; 24]`, `[DataType; 24]` and `[[u8; 10]; 24]` are lists of length 24
(of 10-byte lists for the field names). -/
structure DecodeInstructions where
  module_id : Nat
  data_sizes : List DataSize
  data_types : List DataType
  fields : List (List Nat)
deriving DecidableEq, Repr

/-- `DecodeInstructions::default()`. -/
def DecodeInstructions.default : DecodeInstructions :=
  { module_id := 0
    data_sizes := List.replicate 24 .One
    data_types := List.replicate 24 .Unsigned
    fields := List.replicate 24 (List.replicate 10 0) }

instance : Inhabited DecodeInstructions := ⟨DecodeInstructions.default⟩

/-- The `for i in 0..24` field-name loop of `DecodeInstructions::unpack`:
`fields[i] = buffer[(8+i*10)..(8+(i+1)*10)].try_into().unwrap()`.  Indexing a
slice past the buffer's end panics in Rust, which is `panicked` here.  The
first argument counts the remaining iterations (24 at the call site). -/
def fieldsLoop (buffer : List Nat) : Nat → Nat → List (List Nat) → RunResult (List (List Nat))
  | 0, _, fields => .ok fields
  | rem + 1, i, fields =>
    if 8 + (i + 1) * 10 ≤ buffer.length then
      fieldsLoop buffer rem (i + 1) (fields.set i (slice buffer (8 + i * 10) (8 + (i + 1) * 10)))
    else .panicked

/-- `impl Unpack for DecodeInstructions` (note: the source only checks
`buffer.len() < 8` before reading the 240 field-name bytes at offsets 8..248). -/
def DecodeInstructions.unpack (buffer : List Nat) : RunResult DecodeInstructions :=
  if buffer.length < 8 then .err .InvalidBufferSize
  else
    let module_id := buffer[0]! + buffer[1]! * 256
    match dataSizesUnpack (slice buffer 2 5) with
    | .err e => .err e
    | .panicked => .panicked
    | .diverge => .diverge
    | .ok data_sizes =>
      match dataTypesUnpack (slice buffer 5 8) with
      | .err e => .err e
      | .panicked => .panicked
      | .diverge => .diverge
      | .ok data_types =>
        match fieldsLoop buffer 24 0 (List.replicate 24 (List.replicate 10 0)) with
        | .err e => .err e
        | .panicked => .panicked
        | .diverge => .diverge
        | .ok fields =>
          .ok
            { module_id := module_id
              data_sizes := data_sizes
              data_types := data_types
              fields := fields }

/-- `DecodeError` from `common/src/input/other.rs`. -/
inductive DecodeError where
  | OutOfBounds
  | UnknownDataType
deriving DecidableEq, Repr

/-- `DecodedInput` from `common/src/input/other.rs`.  Unsigned values are the
`Nat` read little-endian, signed values the two's-complement `Int`, and the
floating variants carry the raw little-endian bit pattern of the `f32`/`f64`
(`from_le_bytes` is a bijection between byte patterns and float bit patterns,
so nothing is lost by staying at the bit level). -/
inductive DecodedInput where
  | U8 (value : Nat) (name : List Nat)
  | U16 (value : Nat) (name : List Nat)
  | U32 (value : Nat) (name : List Nat)
  | U64 (value : Nat) (name : List Nat)
  | I8 (value : Int) (name : List Nat)
  | I16 (value : Int) (name : List Nat)
  | I32 (value : Int) (name : List Nat)
  | I64 (value : Int) (name : List Nat)
  | F32 (bits : Nat) (name : List Nat)
  | F64 (bits : Nat) (name : List Nat)
deriving DecidableEq, Repr

/-- Little-endian byte-list value (`uN::from_le_bytes`). -/
def leBytes : List Nat → Nat
  | [] => 0
  | b :: rest => b + 256 * leBytes rest

/-- Two's-complement reinterpretation of an unsigned `bits`-bit value
(`iN::from_le_bytes`). -/
def toSigned (n bits : Nat) : Int :=
  if n < 2 ^ (bits - 1) then (n : Int) else (n : Int) - 2 ^ bits

/-- `impl Decode for OtherInput`: `decode(&self, idx, decode_instructions)`.
The `for i in 0..idx` loop computing `cumulative_counter` is the fold over
`List.range idx`. -/
def decode (self : List Nat) (idx : Nat) (d : DecodeInstructions) :
    Except DecodeError DecodedInput :=
  let cumulative_counter :=
    (List.range idx).foldl (fun acc i => acc + (d.data_sizes[i]!).bytes) 0
  if 24 < cumulative_counter + (d.data_sizes[idx]!).bytes then .error .OutOfBounds
  else
    match d.data_sizes[idx]!, d.data_types[idx]! with
    | .One, .Unsigned => .ok (.U8 self[cumulative_counter]! d.fields[idx]!)
    | .Two, .Unsigned =>
      .ok (.U16 (leBytes (slice self cumulative_counter (cumulative_counter + 2))) d.fields[idx]!)
    | .Four, .Unsigned =>
      .ok (.U32 (leBytes (slice self cumulative_counter (cumulative_counter + 4))) d.fields[idx]!)
    | .Eight, .Unsigned =>
      .ok (.U64 (leBytes (slice self cumulative_counter (cumulative_counter + 8))) d.fields[idx]!)
    | .One, .Signed => .ok (.I8 (toSigned self[cumulative_counter]! 8) d.fields[idx]!)
    | .Two, .Signed =>
      .ok
        (.I16 (toSigned (leBytes (slice self cumulative_counter (cumulative_counter + 2))) 16)
          d.fields[idx]!)
    | .Four, .Signed =>
      .ok
        (.I32 (toSigned (leBytes (slice self cumulative_counter (cumulative_counter + 4))) 32)
          d.fields[idx]!)
    | .Eight, .Signed =>
      .ok
        (.I64 (toSigned (leBytes (slice self cumulative_counter (cumulative_counter + 8))) 64)
          d.fields[idx]!)
    | .Four, .Floating =>
      .ok (.F32 (leBytes (slice self cumulative_counter (cumulative_counter + 4))) d.fields[idx]!)
    | .Eight, .Floating =>
      .ok (.F64 (leBytes (slice self cumulative_counter (cumulative_counter + 8))) d.fields[idx]!)
    | _, _ => .error .UnknownDataType

/-- `check_three_input` from `main-input/src/lib.rs`.  Instants are microsecond
counts (`Instant<u64, 1, 1_000_000>`), so `SEQUENCE_DELAY_MS.millis()` is
500000; the `&mut u8` click counter is passed in and returned next to the
selected triple; `*last_click += 1` wraps at 256 as the release-profile `u8`
increment does. -/
def checkThreeInput (now : Nat) (last_time : Option Nat) (last_click : Nat) :
    (Bool × Bool × Bool) × Nat :=
  match last_time with
  | some time =>
    if now - time < 500000 then
      let last_click := (last_click + 1) % 256
      (match last_click % 3 with
        | 0 => (true, false, false)
        | 1 => (false, true, false)
        | _ => (false, false, true),
        last_click)
    else ((true, false, false), 0)
  | none => ((true, false, false), last_click)

/-- `check_four_input` from `main-input/src/lib.rs` (same conventions as
`checkThreeInput`). -/
def checkFourInput (now : Nat) (last_time : Option Nat) (last_click : Nat) :
    (Bool × Bool × Bool × Bool) × Nat :=
  match last_time with
  | some time =>
    if now - time < 500000 then
      let last_click := (last_click + 1) % 256
      (match last_click % 4 with
        | 0 => (true, false, false, false)
        | 1 => (false, true, false, false)
        | 2 => (false, false, true, false)
        | _ => (false, false, false, true),
        last_click)
    else ((true, false, false, false), 0)
  | none => ((true, false, false, false), last_click)

/-- The extension-2 block of `update_inputs` (`main-input/src/main.rs` lines
306-310): `next_input |= input`, then move `input`'s lower analog bank into
the upper bank and `input`'s first other-payload into the second slot. -/
def updateExt2 (next_input input : Input) : Input :=
  let next_input := next_input.bitor input
  let next_input := { next_input with analog := { next_input.analog with a3 := input.analog.a0 } }
  let next_input := { next_input with analog := { next_input.analog with a4 := input.analog.a1 } }
  let next_input := { next_input with analog := { next_input.analog with a5 := input.analog.a2 } }
  { next_input with other_input_two := input.other_input_one }

/-- `InputRequest` from `common/src/input.rs`. -/
inductive InputRequest where
  | FullInput
  | Numpad
  | Keypad
  | Auxiliary
  | Analog
  | DecodeOne
  | OtherOne
  | DecodeTwo
  | OtherTwo
  | SetAddress
deriving DecidableEq, Repr

/-- `impl From<u8> for InputRequest`: codes 0-8 name a view, everything else
falls back to `SetAddress`. -/
def InputRequest.fromByte (value : Nat) : InputRequest :=
  match value with
  | 0 => .FullInput
  | 1 => .Numpad
  | 2 => .Keypad
  | 3 => .Auxiliary
  | 4 => .Analog
  | 5 => .DecodeOne
  | 6 => .OtherOne
  | 7 => .DecodeTwo
  | 8 => .OtherTwo
  | _ => .SetAddress

/-- One event of the served-side bus, as dispatched by `i2c_interrupt`
(`main-input/src/main.rs`): event codes 0 and 1 (Start/Restart, which read the
instruction byte `b`), 2 (Transfer Read), 3 (Transfer Write, carrying the
byte the controller wrote), and the catch-all Stop. -/
inductive I2CEvent where
  | start (b : Nat)
  | read
  | write (b : Nat)
  | stop
deriving DecidableEq, Repr

/-- The responder state touched by `i2c_interrupt`: the pending `instruction`
and the device's bus identity (the static `I2C_ADDRESS`, re-established on the
peripheral after a completed `SetAddress` write). -/
structure I2CState where
  instruction : Option InputRequest
  address : Nat
deriving DecidableEq, Repr

/-- The response bytes the Transfer-Read arm of `i2c_interrupt` emits for a
pending request, each serialized into a fresh zeroed buffer of the view's
size. -/
def respond (input : Input) (ext1_decode ext2_decode : List Nat) (address : Nat) :
    InputRequest → List Nat
  | .FullInput => (input.pack (List.replicate 71 0)).2
  | .Numpad => (input.numpad.pack (List.replicate 2 0)).2
  | .Keypad => (input.keypad.pack (List.replicate 4 0)).2
  | .Auxiliary => (input.auxiliary.pack (List.replicate 4 0)).2
  | .Analog => (input.analog.pack (List.replicate 12 0)).2
  | .DecodeOne => ext1_decode
  | .OtherOne => input.other_input_one
  | .DecodeTwo => ext2_decode
  | .OtherTwo => input.other_input_two
  | .SetAddress => [address]

/-- One iteration of the `i2c_interrupt` event loop: next state and the bytes
written on the bus, if any. -/
def i2cStep (input : Input) (ext1_decode ext2_decode : List Nat) (st : I2CState) :
    I2CEvent → I2CState × Option (List Nat)
  | .start b => ({ st with instruction := some (InputRequest.fromByte b) }, none)
  | .read =>
    match st.instruction with
    | some instr => (st, some (respond input ext1_decode ext2_decode st.address instr))
    | none => (st, none)
  | .write b =>
    match st.instruction with
    | some .SetAddress => ({ st with address := b }, none)
    | _ => (st, none)
  | .stop => ({ st with instruction := none }, none)

/-- Run the responder over an event trace, returning the final state. -/
def i2cRun (input : Input) (ext1_decode ext2_decode : List Nat) (st : I2CState) :
    List I2CEvent → I2CState
  | [] => st
  | e :: rest => i2cRun input ext1_decode ext2_decode
      (i2cStep input ext1_decode ext2_decode st e).1 rest

/-- Run the responder over an event trace, collecting every response emitted. -/
def i2cOutputs (input : Input) (ext1_decode ext2_decode : List Nat) (st : I2CState) :
    List I2CEvent → List (List Nat)
  | [] => []
  | e :: rest =>
    match i2cStep input ext1_decode ext2_decode st e with
    | (st2, some out) => out :: i2cOutputs input ext1_decode ext2_decode st2 rest
    | (st2, none) => i2cOutputs input ext1_decode ext2_decode st2 rest

/-- The claim-side description of `decode` (C4), written from the spec's
words: the slot's offset is the sum of the sizes of the preceding slots; the
call fails with `OutOfBounds` exactly when `offset + size` exceeds 24,
otherwise with `UnknownDataType` exactly for the pairs (One, Floating) and
(Two, Floating), and otherwise returns the little-endian interpretation of
`p[offset..offset+size]` (two's-complement for signed) with the slot's name. -/
def specDecode (p : List Nat) (idx : Nat) (d : DecodeInstructions) :
    Except DecodeError DecodedInput :=
  let offset := ((d.data_sizes.take idx).map DataSize.bytes).sum
  let size := d.data_sizes[idx]!
  let ty := d.data_types[idx]!
  let name := d.fields[idx]!
  if 24 < offset + size.bytes then .error .OutOfBounds
  else if (size = .One ∨ size = .Two) ∧ ty = .Floating then .error .UnknownDataType
  else
    let raw := leBytes (slice p offset (offset + size.bytes))
    match size, ty with
    | .One, .Unsigned => .ok (.U8 raw name)
    | .Two, .Unsigned => .ok (.U16 raw name)
    | .Four, .Unsigned => .ok (.U32 raw name)
    | .Eight, .Unsigned => .ok (.U64 raw name)
    | .One, .Signed => .ok (.I8 (toSigned raw 8) name)
    | .Two, .Signed => .ok (.I16 (toSigned raw 16) name)
    | .Four, .Signed => .ok (.I32 (toSigned raw 32) name)
    | .Eight, .Signed => .ok (.I64 (toSigned raw 64) name)
    | .Four, .Floating => .ok (.F32 raw name)
    | _, _ => .ok (.F64 raw name)

/-- Writing consecutive entries `xs` into a list starting at index `idx` (how
the decode loops fill `data_sizes` / `data_types`). -/
def setSeq {α : Type} (arr : List α) (idx : Nat) : List α → List α
  | [] => arr
  | x :: xs => setSeq (arr.set idx x) (idx + 1) xs

/-! ## Theorems -/

/-- C2: evaluation of the source `BitOr for Keypad` at the failing input
`x = {b: true, rest false}`, `y = Keypad::default()`: the merged `b` flag is
`false` because the implementation computes `self.a || rhs.b` for it, while
the declared contract (`x.b || y.b`) requires `true`.  The letters `b`
through `s` all OR against the left operand's `a` flag. -/
theorem keypad_bitor_code_bug :
    (Keypad.bitor { Keypad.default with b := true } Keypad.default).b = false ∧
      ({ Keypad.default with b := true } : Keypad).b = true ∧
      (Keypad.bitor { Keypad.default with s := true } Keypad.default).s = false ∧
      (Keypad.bitor { Keypad.default with a := true } Keypad.default).s = true := by
  decide

/-- C5: in the extension-2 block of `update_inputs`, the combined state's
analog channels 3-5 are extension 2's channels 0-2 and its second
other-payload is extension 2's first other-payload, and the result does not
depend on extension 2's own channels 3-5 or second other-payload. -/
theorem updateExt2_spec (base e2 : Input) :
    (updateExt2 base e2).analog.a3 = e2.analog.a0 ∧
      (updateExt2 base e2).analog.a4 = e2.analog.a1 ∧
      (updateExt2 base e2).analog.a5 = e2.analog.a2 ∧
      (updateExt2 base e2).other_input_two = e2.other_input_one ∧
      ∀ x3 x4 x5 o2,
        updateExt2 base
            { e2 with
              analog := { e2.analog with a3 := x3, a4 := x4, a5 := x5 }
              other_input_two := o2 } =
          updateExt2 base e2 := by
  exact ⟨rfl, rfl, rfl, rfl, fun x3 x4 x5 o2 => rfl⟩

/-- C5 witness at the spec's concrete channels [10,20,30,40,50,60]. -/
theorem updateExt2_spec_witness :
    (updateExt2 Input.default
          { Input.default with analog := ⟨10, 20, 30, 40, 50, 60⟩ }).analog.a3 = 10 ∧
      (updateExt2 Input.default
          { Input.default with analog := ⟨10, 20, 30, 40, 50, 60⟩ }).analog.a4 = 20 ∧
      (updateExt2 Input.default
          { Input.default with analog := ⟨10, 20, 30, 40, 50, 60⟩ }).analog.a5 = 30 := by
  have h := updateExt2_spec Input.default
    { Input.default with analog := ⟨10, 20, 30, 40, 50, 60⟩ }
  exact ⟨h.1, h.2.1, h.2.2.1⟩

/-- C7: every fixed-field packer returns `Err(InvalidBufferSize)` and leaves
the destination buffer untouched when it is shorter than the view's declared
size (2 / 4 / 4 / 12 / 71 bytes), and the matching unpacker fails identically
on an undersized source buffer. -/
theorem pack_undersized_spec (np : Numpad) (kp : Keypad) (aux : Auxiliary)
    (an : AnalogInputs) (inp : Input) (buf : List Nat) :
    (buf.length < 2 →
      np.pack buf = (.error .InvalidBufferSize, buf) ∧
        Numpad.unpack buf = .error .InvalidBufferSize) ∧
    (buf.length < 4 →
      kp.pack buf = (.error .InvalidBufferSize, buf) ∧
        Keypad.unpack buf = .error .InvalidBufferSize) ∧
    (buf.length < 4 →
      aux.pack buf = (.error .InvalidBufferSize, buf) ∧
        Auxiliary.unpack buf = .error .InvalidBufferSize) ∧
    (buf.length < 12 →
      an.pack buf = (.error .InvalidBufferSize, buf) ∧
        AnalogInputs.unpack buf = .error .InvalidBufferSize) ∧
    (buf.length < 71 →
      inp.pack buf = (.error .InvalidBufferSize, buf) ∧
        Input.unpack buf = .error .InvalidBufferSize) := by
  refine ⟨fun h => ⟨?_, ?_⟩, fun h => ⟨?_, ?_⟩, fun h => ⟨?_, ?_⟩, fun h => ⟨?_, ?_⟩,
    fun h => ⟨?_, ?_⟩⟩
  · simp [Numpad.pack, h]
  · simp [Numpad.unpack, h]
  · simp [Keypad.pack, h]
  · simp [Keypad.unpack, h]
  · simp [Auxiliary.pack, h]
  · simp [Auxiliary.unpack, h]
  · simp [AnalogInputs.pack, h]
  · simp [AnalogInputs.unpack, h]
  · simp [Input.pack, h]
  · simp [Input.unpack, h]

/-- C7 witness: the empty buffer is rejected unchanged by all five views. -/
theorem pack_undersized_spec_witness :
    Numpad.pack Numpad.default [] = (.error .InvalidBufferSize, []) ∧
      Keypad.unpack [0, 1, 2] = .error .InvalidBufferSize ∧
      Auxiliary.pack Auxiliary.default [7] = (.error .InvalidBufferSize, [7]) ∧
      AnalogInputs.unpack [0] = .error .InvalidBufferSize ∧
      Input.pack Input.default [3, 4] = (.error .InvalidBufferSize, [3, 4]) := by
  refine ⟨?_, ?_, ?_, ?_, ?_⟩
  · exact ((pack_undersized_spec Numpad.default Keypad.default Auxiliary.default
      AnalogInputs.default Input.default []).1 (by decide)).1
  · exact ((pack_undersized_spec Numpad.default Keypad.default Auxiliary.default
      AnalogInputs.default Input.default [0, 1, 2]).2.1 (by decide)).2
  · exact ((pack_undersized_spec Numpad.default Keypad.default Auxiliary.default
      AnalogInputs.default Input.default [7]).2.2.1 (by decide)).1
  · exact ((pack_undersized_spec Numpad.default Keypad.default Auxiliary.default
      AnalogInputs.default Input.default [0]).2.2.2.1 (by decide)).2
  · exact ((pack_undersized_spec Numpad.default Keypad.default Auxiliary.default
      AnalogInputs.default Input.default [3, 4]).2.2.2.2 (by decide)).1

/-- C6 (amended): for `check_three_input` / `check_four_input` with current
time `now` (microseconds), optional reference timestamp and counter: with no
timestamp the counter is left unchanged (not reset) and candidate 0 selected;
with a timestamp at least 500 ms old the counter is reset to 0 and candidate 0
selected; with a younger timestamp the counter is incremented (wrapping as a
`u8`) and candidate (counter mod N) selected using the incremented counter;
in every case exactly one of the N outputs is true.  (`t ≤ now`: the
monotonic clock never runs backwards.) -/
theorem check_input_spec (now t c : Nat) :
    (checkThreeInput now none c = ((true, false, false), c) ∧
      checkFourInput now none c = ((true, false, false, false), c)) ∧
    (t ≤ now → 500000 ≤ now - t →
      checkThreeInput now (some t) c = ((true, false, false), 0) ∧
        checkFourInput now (some t) c = ((true, false, false, false), 0)) ∧
    (now - t < 500000 →
      checkThreeInput now (some t) c =
        ((if (c + 1) % 256 % 3 = 0 then (true, false, false)
          else if (c + 1) % 256 % 3 = 1 then (false, true, false)
          else (false, false, true)), (c + 1) % 256) ∧
      checkFourInput now (some t) c =
        ((if (c + 1) % 256 % 4 = 0 then (true, false, false, false)
          else if (c + 1) % 256 % 4 = 1 then (false, true, false, false)
          else if (c + 1) % 256 % 4 = 2 then (false, false, true, false)
          else (false, false, false, true)), (c + 1) % 256)) ∧
    ∀ lt : Option Nat,
      ((checkThreeInput now lt c).1.1.toNat + (checkThreeInput now lt c).1.2.1.toNat +
          (checkThreeInput now lt c).1.2.2.toNat = 1) ∧
        ((checkFourInput now lt c).1.1.toNat + (checkFourInput now lt c).1.2.1.toNat +
          (checkFourInput now lt c).1.2.2.1.toNat + (checkFourInput now lt c).1.2.2.2.toNat = 1) := by
  have sel3 : ∀ m : Nat,
      ((match m % 3 with
        | 0 => (true, false, false)
        | 1 => (false, true, false)
        | _ => ((false, false, true) : Bool × Bool × Bool)) =
        if m % 3 = 0 then (true, false, false)
        else if m % 3 = 1 then (false, true, false)
        else (false, false, true)) := by
    intro m
    have h3 : m % 3 = 0 ∨ m % 3 = 1 ∨ m % 3 = 2 := by omega
    rcases h3 with h | h | h <;> rw [h] <;> rfl
  have sel4 : ∀ m : Nat,
      ((match m % 4 with
        | 0 => (true, false, false, false)
        | 1 => (false, true, false, false)
        | 2 => (false, false, true, false)
        | _ => ((false, false, false, true) : Bool × Bool × Bool × Bool)) =
        if m % 4 = 0 then (true, false, false, false)
        else if m % 4 = 1 then (false, true, false, false)
        else if m % 4 = 2 then (false, false, true, false)
        else (false, false, false, true)) := by
    intro m
    have h4 : m % 4 = 0 ∨ m % 4 = 1 ∨ m % 4 = 2 ∨ m % 4 = 3 := by omega
    rcases h4 with h | h | h | h <;> rw [h] <;> rfl
  refine ⟨⟨rfl, rfl⟩, fun ht h => ?_, fun h => ?_, fun lt => ?_⟩
  · have hn : ¬ now - t < 500000 := by omega
    constructor
    · simp only [checkThreeInput, if_neg hn]
    · simp only [checkFourInput, if_neg hn]
  · constructor
    · simp only [checkThreeInput, if_pos h]
      rw [sel3 ((c + 1) % 256)]
    · simp only [checkFourInput, if_pos h]
      rw [sel4 ((c + 1) % 256)]
  · rcases lt with _ | tt
    · exact ⟨rfl, rfl⟩
    · constructor
      · simp only [checkThreeInput]
        by_cases h : now - tt < 500000
        · rw [if_pos h, sel3 ((c + 1) % 256)]
          by_cases h0 : (c + 1) % 256 % 3 = 0
          · rw [if_pos h0]; rfl
          · rw [if_neg h0]
            by_cases h1 : (c + 1) % 256 % 3 = 1
            · rw [if_pos h1]; rfl
            · rw [if_neg h1]; rfl
        · rw [if_neg h]; rfl
      · simp only [checkFourInput]
        by_cases h : now - tt < 500000
        · rw [if_pos h, sel4 ((c + 1) % 256)]
          by_cases h0 : (c + 1) % 256 % 4 = 0
          · rw [if_pos h0]; rfl
          · rw [if_neg h0]
            by_cases h1 : (c + 1) % 256 % 4 = 1
            · rw [if_pos h1]; rfl
            · rw [if_neg h1]
              by_cases h2 : (c + 1) % 256 % 4 = 2
              · rw [if_pos h2]; rfl
              · rw [if_neg h2]; rfl
        · rw [if_neg h]; rfl

/-- C6 witness: a 600 ms-old timestamp resets the counter and selects
candidate 0; a 100 µs-old timestamp advances counter 3 to 4 and selects
candidate 4 mod 3 = 1 (resp. 4 mod 4 = 0). -/
theorem check_input_spec_witness :
    (checkThreeInput 600000 (some 0) 7 = ((true, false, false), 0) ∧
        checkFourInput 600000 (some 0) 7 = ((true, false, false, false), 0)) ∧
      checkThreeInput 100 (some 0) 3 = ((false, true, false), 4) ∧
        checkFourInput 100 (some 0) 3 = ((true, false, false, false), 4) := by
  refine ⟨(check_input_spec 600000 0 7).2.1 (by decide) (by decide), ?_, ?_⟩
  · have h := ((check_input_spec 100 0 3).2.2.1 (by decide)).1
    simpa using h
  · have h := ((check_input_spec 100 0 3).2.2.1 (by decide)).2
    simpa using h

/-- C6 counterexample to the claim as stated: with the timestamp absent the
counter is *not* reset to 0 (here it stays 5). -/
theorem check_three_input_no_reset : (checkThreeInput 0 none 5).2 ≠ 0 := by
  decide

theorem i2cStep_read_fst (input : Input) (d1 d2 : List Nat) (st : I2CState) :
    (i2cStep input d1 d2 st .read).1 = st := by
  rcases st with ⟨inst, addr⟩
  cases inst <;> rfl

theorem i2cStep_write_fst_of_not_set (input : Input) (d1 d2 : List Nat) (st : I2CState)
    (b : Nat) (h : st.instruction ≠ some .SetAddress) :
    (i2cStep input d1 d2 st (.write b)).1 = st := by
  rcases st with ⟨inst, addr⟩
  rcases inst with _ | instr
  · rfl
  · cases instr <;> first | rfl | exact absurd rfl h

/-- With no pending instruction and no Start event in the trace, the responder
emits nothing and its state never changes. -/
theorem i2c_idle_run (input : Input) (d1 d2 : List Nat) :
    ∀ (l : List I2CEvent) (st : I2CState), st.instruction = none →
      (∀ bb, I2CEvent.start bb ∉ l) →
      i2cOutputs input d1 d2 st l = [] ∧ i2cRun input d1 d2 st l = st := by
  intro l
  induction l with
  | nil => exact fun st _ _ => ⟨rfl, rfl⟩
  | cons e rest ih =>
    intro st hnone hns
    have hns2 : ∀ bb, I2CEvent.start bb ∉ rest := by
      intro bb hmem
      exact hns bb (List.mem_cons_of_mem _ hmem)
    rcases st with ⟨inst, addr⟩
    cases inst with
    | some _ => cases hnone
    | none =>
      rcases e with bb | _ | bb | _
      · exact absurd (List.mem_cons_self _ _) (hns bb)
      · exact ih ⟨none, addr⟩ rfl hns2
      · exact ih ⟨none, addr⟩ rfl hns2
      · exact ih ⟨none, addr⟩ rfl hns2

/-- A run that changes the bus identity contains a Write event executed while
the pending instruction was `SetAddress`. -/
theorem i2c_addr_change (input : Input) (d1 d2 : List Nat) :
    ∀ (l : List I2CEvent) (st : I2CState),
      (i2cRun input d1 d2 st l).address ≠ st.address →
      ∃ pre bb post, l = pre ++ .write bb :: post ∧
        (i2cRun input d1 d2 st pre).instruction = some .SetAddress := by
  intro l
  induction l with
  | nil => exact fun st h => absurd rfl h
  | cons e rest ih =>
    intro st h
    by_cases hsame : (i2cStep input d1 d2 st e).1.address = st.address
    · have h2 : (i2cRun input d1 d2 (i2cStep input d1 d2 st e).1 rest).address ≠
          (i2cStep input d1 d2 st e).1.address := by
        rw [hsame]
        exact h
      obtain ⟨pre, bb, post, hl, hinst⟩ := ih _ h2
      refine ⟨e :: pre, bb, post, by rw [hl]; rfl, ?_⟩
      show (i2cRun input d1 d2 (i2cStep input d1 d2 st e).1 pre).instruction = _
      exact hinst
    · rcases e with bb | _ | bb | _
      · exact absurd rfl hsame
      · exact absurd (congrArg I2CState.address (i2cStep_read_fst input d1 d2 st)) hsame
      · by_cases hset : st.instruction = some .SetAddress
        · exact ⟨[], bb, rest, rfl, hset⟩
        · exact absurd
            (congrArg I2CState.address (i2cStep_write_fst_of_not_set input d1 d2 st bb hset))
            hsame
      · exact absurd rfl hsame

/-- C8: every Stop event clears the pending request and emits nothing; after a
Stop, a trace with no Start event produces no response bytes and leaves the
identity unchanged; the trace Start, instruction byte 0x09, Write(b) sets the
identity to `b`; and any run that changes the identity contains a Write event
executed while the pending request was `SetAddress` (a completed SetAddress
transaction). -/
theorem i2c_responder_spec (input : Input) (d1 d2 : List Nat) (st : I2CState)
    (l : List I2CEvent) (b : Nat) :
    i2cStep input d1 d2 st .stop = ({ st with instruction := none }, none) ∧
    ((∀ bb, I2CEvent.start bb ∉ l) →
      i2cOutputs input d1 d2 { st with instruction := none } l = [] ∧
        (i2cRun input d1 d2 { st with instruction := none } l).address = st.address) ∧
    (i2cRun input d1 d2 st [.start 9, .write b]).address = b ∧
    ((i2cRun input d1 d2 st l).address ≠ st.address →
      ∃ pre bb post, l = pre ++ .write bb :: post ∧
        (i2cRun input d1 d2 st pre).instruction = some .SetAddress) := by
  refine ⟨rfl, fun hns => ?_, rfl, i2c_addr_change input d1 d2 l st⟩
  obtain ⟨ho, hr⟩ := i2c_idle_run input d1 d2 l { st with instruction := none } rfl hns
  exact ⟨ho, by rw [hr]⟩

/-- C8 witness: concrete re-addressing trace and a concrete idle trace. -/
theorem i2c_responder_spec_witness :
    (i2cRun Input.default [] [] ⟨none, 0⟩ [.start 9, .write 0x42]).address = 0x42 ∧
      i2cOutputs Input.default [] [] ⟨none, 7⟩ [.read, .write 1, .read] = [] ∧
      ∃ pre bb post,
        ([.start 9, .write 0x42] : List I2CEvent) = pre ++ .write bb :: post ∧
          (i2cRun Input.default [] [] ⟨none, 0⟩ pre).instruction = some .SetAddress := by
  refine ⟨(i2c_responder_spec Input.default [] [] ⟨none, 0⟩ [] 0x42).2.2.1, ?_, ?_⟩
  · have h := (i2c_responder_spec Input.default [] [] ⟨none, 7⟩
      [.read, .write 1, .read] 0).2.1 (by intro bb hmem; simp at hmem)
    exact h.1
  · exact (i2c_responder_spec Input.default [] [] ⟨none, 0⟩ [.start 9, .write 0x42] 0).2.2.2
      (by decide)

/-- The `for i in 0..idx` accumulation in `decode` is the sum of the sizes of
the slots before `idx`. -/
theorem cumulative_eq (l : List DataSize) :
    ∀ idx, idx ≤ l.length →
      (List.range idx).foldl (fun acc i => acc + (l[i]!).bytes) 0 =
        ((l.take idx).map DataSize.bytes).sum := by
  intro idx
  induction idx with
  | zero => exact fun _ => rfl
  | succ n ihn =>
    intro h
    have hn : n < l.length := by omega
    rw [List.range_succ, List.foldl_append, ihn (by omega), ← List.take_concat_get' l n hn,
      List.map_append, List.sum_append]
    simp only [List.foldl_cons, List.foldl_nil, List.map_cons, List.map_nil, List.sum_cons,
      List.sum_nil]
    rw [getElem!_pos l n hn]
    omega

theorem slice_one (p : List Nat) (off : Nat) (h : off < p.length) :
    slice p off (off + 1) = [p[off]!] := by
  unfold slice
  have h1 : off + 1 - off = 1 := by omega
  rw [h1, List.drop_eq_getElem_cons h, getElem!_pos p off h]
  rfl

theorem leBytes_one (x : Nat) : leBytes [x] = x := by
  simp [leBytes]

/-- C4: `decode` behaves exactly as the spec describes: with `offset` the sum
of the sizes of slots `0..idx`, it fails with `OutOfBounds` exactly when
`offset + size` exceeds 24, otherwise fails with `UnknownDataType` exactly
for the pairs (One, Floating) and (Two, Floating), and otherwise returns the
little-endian value of `p[offset..offset+size]` (two's-complement for signed)
with the 10-byte name of slot `idx`. -/
theorem decode_matches_spec (p : List Nat) (idx : Nat) (d : DecodeInstructions)
    (hp : p.length = 24) (hds : d.data_sizes.length = 24) (hidx : idx < 24) :
    decode p idx d = specDecode p idx d := by
  have hcum := cumulative_eq d.data_sizes idx (by omega)
  simp only [decode, specDecode]
  rw [hcum]
  by_cases h24 :
    24 < ((d.data_sizes.take idx).map DataSize.bytes).sum + (d.data_sizes[idx]!).bytes
  · rw [if_pos h24, if_pos h24]
  · rw [if_neg h24, if_neg h24]
    cases hsz : d.data_sizes[idx]! <;> cases hty : d.data_types[idx]! <;>
      simp only [DataSize.bytes] <;> try rfl
    all_goals
      have hC : ((d.data_sizes.take idx).map DataSize.bytes).sum < p.length := by
        rw [hsz] at h24
        simp only [DataSize.bytes] at h24
        omega
    all_goals rw [slice_one p _ hC, leBytes_one]
    all_goals rfl

/-- C4 witness: slot 1 of a payload with byte 255 at offset 1, default
instructions (all sizes One, all types Unsigned). -/
theorem decode_matches_spec_witness :
    decode ((List.replicate 24 0).set 1 255) 1 DecodeInstructions.default =
      specDecode ((List.replicate 24 0).set 1 255) 1 DecodeInstructions.default ∧
      decode ((List.replicate 24 0).set 1 255) 1 DecodeInstructions.default =
        .ok (.U8 255 (List.replicate 10 0)) := by
  constructor
  · exact decode_matches_spec ((List.replicate 24 0).set 1 255) 1 DecodeInstructions.default
      (by decide) (by decide) (by decide)
  · decide

/-! ### Bit-level bridges for the variable-length prefix code -/

theorem lor_lowbits (v p b : Nat) (hv : v < 2 ^ b) : v ||| (p <<< b) = 2 ^ b * p + v := by
  apply Nat.eq_of_testBit_eq
  intro i
  rw [Nat.testBit_or, Nat.testBit_shiftLeft, Nat.testBit_mul_pow_two_add p hv i]
  by_cases hi : i < b
  · simp [hi, Nat.not_le.2 hi]
  · have hb : b ≤ i := Nat.le_of_not_lt hi
    have hvf : v.testBit i = false :=
      Nat.testBit_lt_two_pow (lt_of_lt_of_le hv (Nat.pow_le_pow_right (by omega) hb))
    simp [hi, hb, hvf]

theorem shiftRight_mul_pow_add (v p b : Nat) (hv : v < 2 ^ b) : (2 ^ b * p + v) >>> b = p := by
  rw [Nat.shiftRight_eq_div_pow, Nat.mul_comm, Nat.add_comm, Nat.add_mul_div_right _ _
    (Nat.two_pow_pos b), Nat.div_eq_of_lt hv]
  omega

theorem and_mask_eq_shl_mod (d b k : Nat) :
    d &&& ((2 ^ k - 1) <<< b) = ((d >>> b) % 2 ^ k) <<< b := by
  apply Nat.eq_of_testBit_eq
  intro i
  simp only [Nat.testBit_and, Nat.testBit_shiftLeft, Nat.testBit_shiftRight,
    Nat.testBit_mod_two_pow, Nat.testBit_two_pow_sub_one]
  by_cases hi : b ≤ i
  · rw [Nat.add_sub_cancel' hi]
    cases d.testBit i <;> simp [hi]
  · simp [hi]

theorem shl_left_inj (x y b : Nat) : x <<< b = y <<< b ↔ x = y := by
  constructor
  · intro h
    rw [Nat.shiftLeft_eq, Nat.shiftLeft_eq] at h
    exact Nat.eq_of_mul_eq_mul_right (Nat.two_pow_pos b) h
  · intro h
    rw [h]

/-- The source's pattern test `data & (mask << bit) == pat << bit` with
`mask = 2^k - 1` reads the `k`-bit window of `data` at `bit`. -/
theorem mask_window (d b k c : Nat) :
    (d &&& ((2 ^ k - 1) <<< b) = c <<< b) ↔ (d >>> b) % 2 ^ k = c := by
  rw [and_mask_eq_shl_mod, shl_left_inj]

theorem mask_window4 (d b c : Nat) : (d &&& (15 <<< b) = c <<< b) ↔ (d >>> b) % 16 = c := by
  have h := mask_window d b 4 c
  norm_num at h
  exact h

theorem mask_window3 (d b c : Nat) : (d &&& (7 <<< b) = c <<< b) ↔ (d >>> b) % 8 = c := by
  have h := mask_window d b 3 c
  norm_num at h
  exact h

theorem mask_window2 (d b c : Nat) : (d &&& (3 <<< b) = c <<< b) ↔ (d >>> b) % 4 = c := by
  have h := mask_window d b 2 c
  norm_num at h
  exact h

theorem mask_window1 (d b c : Nat) : (d &&& (1 <<< b) = c <<< b) ↔ (d >>> b) % 2 = c := by
  have h := mask_window d b 1 c
  norm_num at h
  exact h

theorem getElem!_set_ne {α : Type} [Inhabited α] {l : List α} {a : α} {i j : Nat}
    (h : i ≠ j) : (l.set i a)[j]! = l[j]! := by
  by_cases hj : j < l.length
  · rw [getElem!_pos (l.set i a) j (by simpa using hj), getElem!_pos l j hj, List.getElem_set]
    simp [h]
  · rw [getElem!_neg (l.set i a) j (by simpa using hj), getElem!_neg l j hj]

theorem getElem!_set_self {α : Type} [Inhabited α] {l : List α} {a : α} {i : Nat}
    (h : i < l.length) : (l.set i a)[i]! = a := by
  rw [getElem!_pos (l.set i a) i (by simpa using h)]
  simp [List.getElem_set]

theorem setSeq_length {α : Type} :
    ∀ (xs arr : List α) (idx : Nat), (setSeq arr idx xs).length = arr.length := by
  intro xs
  induction xs with
  | nil => intro arr idx; rfl
  | cons x xs ih =>
    intro arr idx
    show (setSeq (arr.set idx x) (idx + 1) xs).length = arr.length
    rw [ih (arr.set idx x) (idx + 1), List.length_set]

theorem setSeq_get_lt {α : Type} [Inhabited α] :
    ∀ (xs arr : List α) (idx p : Nat), p < idx → (setSeq arr idx xs)[p]! = arr[p]! := by
  intro xs
  induction xs with
  | nil => intro arr idx p _; rfl
  | cons x xs ih =>
    intro arr idx p h
    show (setSeq (arr.set idx x) (idx + 1) xs)[p]! = arr[p]!
    rw [ih (arr.set idx x) (idx + 1) p (by omega)]
    exact getElem!_set_ne (by omega)

theorem setSeq_get {α : Type} [Inhabited α] :
    ∀ (xs arr : List α) (idx j : Nat), idx + xs.length ≤ arr.length → j < xs.length →
      (setSeq arr idx xs)[idx + j]! = xs[j]! := by
  intro xs
  induction xs with
  | nil => intro arr idx j _ hj; exact absurd hj (by simp)
  | cons x xs ih =>
    intro arr idx j hle hj
    rcases j with _ | j
    · show (setSeq (arr.set idx x) (idx + 1) xs)[idx + 0]! = _
      have hidx : idx < arr.length := by
        simp only [List.length_cons] at hle
        omega
      rw [setSeq_get_lt xs (arr.set idx x) (idx + 1) (idx + 0) (by omega)]
      rw [show idx + 0 = idx from rfl, getElem!_set_self hidx, List.getElem!_cons_zero]
    · show (setSeq (arr.set idx x) (idx + 1) xs)[idx + (j + 1)]! = (x :: xs)[j + 1]!
      rw [List.getElem!_cons_succ]
      rw [show idx + (j + 1) = (idx + 1) + j by omega]
      exact ih (arr.set idx x) (idx + 1) j
        (by simp only [List.length_cons] at hle; simp only [List.length_set]; omega)
        (by simpa using hj)

theorem unpackSizesLoop_done (data fuel : Nat) (arr : List DataSize) (idx bit cum : Nat)
    (h : 24 ≤ cum) :
    unpackSizesLoop data fuel arr idx bit cum = some (arr, idx, bit, cum) := by
  cases fuel <;> (simp only [unpackSizesLoop]; rw [if_pos h])

/-- Invariant lemma for the size-tag prefix code: from any loop state
`(v, bit, cum)` with `v < 2^bit`, `bit ≤ cum`, and a prefix of the remaining
symbols whose byte lengths sum exactly to `24 - cum`, the encoder consumes
exactly that prefix, ends at cumulative length 24 with its value still below
`2^bit_final`, and the decoder, reading the final value from the same state,
reproduces the consumed prefix. -/
theorem sizes_aux :
    ∀ (l : List DataSize) (k v bit cum : Nat) (arr : List DataSize) (idx fuel : Nat),
      v < 2 ^ bit → bit ≤ cum → cum ≤ 24 →
      cum + ((l.take k).map DataSize.bytes).sum = 24 → k ≤ l.length → 24 - cum ≤ fuel →
      packSizesLoop l v bit cum = packSizesLoop (l.take k) v bit cum ∧
      (packSizesLoop l v bit cum).2.2 = 24 ∧
      (packSizesLoop l v bit cum).1 < 2 ^ (packSizesLoop l v bit cum).2.1 ∧
      (packSizesLoop l v bit cum).2.1 ≤ 24 ∧
      (∃ R, (packSizesLoop l v bit cum).1 = 2 ^ bit * R + v) ∧
      unpackSizesLoop (packSizesLoop l v bit cum).1 fuel arr idx bit cum =
        some (setSeq arr idx (l.take k), idx + k, (packSizesLoop l v bit cum).2.1, 24) := by
  intro l
  induction l with
  | nil =>
    intro k v bit cum arr idx fuel hv hbc hc24 hsum hk hfuel
    have hk0 : k = 0 := by simpa using hk
    subst hk0
    simp only [List.take_zero, List.map_nil, List.sum_nil, Nat.add_zero] at hsum
    have h1 : packSizesLoop [] v bit cum = (v, bit, cum) := rfl
    refine ⟨rfl, hsum, hv, ?_, ⟨0, by rw [h1]; simp⟩, ?_⟩
    · rw [h1]
      show bit ≤ 24
      omega
    rw [h1]
    rw [unpackSizesLoop_done _ _ _ _ _ _ (by omega : 24 ≤ cum)]
    rw [hsum]
    rfl
  | cons s rest ih =>
    intro k v bit cum arr idx fuel hv hbc hc24 hsum hk hfuel
    by_cases hge : 24 ≤ cum
    · have hcum : cum = 24 := by omega
      have hk0 : k = 0 := by
        rcases k with _ | k2
        · rfl
        · exfalso
          rw [List.take_succ_cons] at hsum
          simp only [List.map_cons, List.sum_cons] at hsum
          have hb : 1 ≤ s.bytes := by cases s <;> decide
          omega
      subst hk0
      have h1 : packSizesLoop (s :: rest) v bit cum = (v, bit, cum) := by
        unfold packSizesLoop
        rw [if_pos hge]
      refine ⟨?_, ?_, ?_, ?_, ?_, ?_⟩
      · rw [List.take_zero, h1]; rfl
      · rw [h1]; exact hcum
      · rw [h1]; exact hv
      · rw [h1]
        show bit ≤ 24
        omega
      · rw [h1]; exact ⟨0, by simp⟩
      · rw [h1]
        rw [unpackSizesLoop_done _ _ _ _ _ _ hge]
        rw [List.take_zero]
        rw [hcum]
        rfl
    · rcases k with _ | k2
      · exfalso
        simp only [List.take_zero, List.map_nil, List.sum_nil, Nat.add_zero] at hsum
        omega
      rcases fuel with _ | fuel2
      · exfalso; omega
      simp only [List.length_cons] at hk
      rw [List.take_succ_cons] at hsum ⊢
      simp only [List.map_cons, List.sum_cons] at hsum
      cases s with
      | One =>
        simp only [DataSize.bytes] at hsum
        have hlor : v ||| (1 <<< bit) = 2 ^ bit * 1 + v := lor_lowbits v 1 bit hv
        have hpow : (2 : Nat) ^ (bit + 1) = 2 ^ bit * 2 := by rw [Nat.pow_succ]
        have hvlt : 2 ^ bit * 1 + v < 2 ^ (bit + 1) := by omega
        obtain ⟨ihA, ihB, ihC, ihD, ⟨R, ihE⟩, ihF⟩ :=
          ih k2 (2 ^ bit * 1 + v) (bit + 1) (cum + 1) (arr.set idx .One) (idx + 1) fuel2
            hvlt (by omega) (by omega) (by omega) (by omega) (by omega)
        have hpack : packSizesLoop (DataSize.One :: rest) v bit cum =
            packSizesLoop rest (2 ^ bit * 1 + v) (bit + 1) (cum + 1) := by
          simp only [packSizesLoop]
          rw [if_neg hge, hlor]
        have hpack2 : packSizesLoop (DataSize.One :: rest.take k2) v bit cum =
            packSizesLoop (rest.take k2) (2 ^ bit * 1 + v) (bit + 1) (cum + 1) := by
          simp only [packSizesLoop]
          rw [if_neg hge, hlor]
        have hdata : (packSizesLoop rest (2 ^ bit * 1 + v) (bit + 1) (cum + 1)).1 =
            2 ^ bit * (2 * R + 1) + v := by
          rw [ihE, hpow]; ring
        have hQ : (packSizesLoop rest (2 ^ bit * 1 + v) (bit + 1) (cum + 1)).1 >>> bit =
            2 * R + 1 := by
          rw [hdata]; exact shiftRight_mul_pow_add v (2 * R + 1) bit hv
        refine ⟨by rw [hpack, hpack2, ihA], by rw [hpack]; exact ihB,
          by rw [hpack]; exact ihC, by rw [hpack]; exact ihD, ?_, ?_⟩
        · exact ⟨2 * R + 1, by rw [hpack, hdata]⟩
        · rw [hpack]
          simp only [unpackSizesLoop]
          rw [if_neg hge]
          rw [if_neg (by rw [mask_window4, hQ]; omega)]
          rw [if_neg (by rw [mask_window3, hQ]; omega)]
          rw [if_neg (by rw [mask_window2, hQ]; omega)]
          rw [if_pos (by rw [mask_window1, hQ]; omega)]
          rw [show idx + (k2 + 1) = (idx + 1) + k2 by omega]
          exact ihF
      | Two =>
        simp only [DataSize.bytes] at hsum
        have hvlt1 : v < 2 ^ (bit + 1) := by
          have := Nat.pow_lt_pow_right (by omega : 1 < 2) (show bit < bit + 1 by omega)
          omega
        have hlor : v ||| (1 <<< (bit + 1)) = 2 ^ (bit + 1) * 1 + v :=
          lor_lowbits v 1 (bit + 1) hvlt1
        have hpow : (2 : Nat) ^ (bit + 1) = 2 ^ bit * 2 := by rw [Nat.pow_succ]
        have hpow2 : (2 : Nat) ^ (bit + 2) = 2 ^ bit * 4 := by
          rw [Nat.pow_succ, Nat.pow_succ]; ring
        have hvlt : 2 ^ (bit + 1) * 1 + v < 2 ^ (bit + 2) := by omega
        obtain ⟨ihA, ihB, ihC, ihD, ⟨R, ihE⟩, ihF⟩ :=
          ih k2 (2 ^ (bit + 1) * 1 + v) (bit + 2) (cum + 2) (arr.set idx .Two) (idx + 1) fuel2
            hvlt (by omega) (by omega) (by omega) (by omega) (by omega)
        have hpack : packSizesLoop (DataSize.Two :: rest) v bit cum =
            packSizesLoop rest (2 ^ (bit + 1) * 1 + v) (bit + 2) (cum + 2) := by
          simp only [packSizesLoop]
          rw [if_neg hge, hlor]
        have hpack2 : packSizesLoop (DataSize.Two :: rest.take k2) v bit cum =
            packSizesLoop (rest.take k2) (2 ^ (bit + 1) * 1 + v) (bit + 2) (cum + 2) := by
          simp only [packSizesLoop]
          rw [if_neg hge, hlor]
        have hdata : (packSizesLoop rest (2 ^ (bit + 1) * 1 + v) (bit + 2) (cum + 2)).1 =
            2 ^ bit * (4 * R + 2) + v := by
          rw [ihE, hpow, hpow2]; ring
        have hQ : (packSizesLoop rest (2 ^ (bit + 1) * 1 + v) (bit + 2) (cum + 2)).1 >>> bit =
            4 * R + 2 := by
          rw [hdata]; exact shiftRight_mul_pow_add v (4 * R + 2) bit hv
        refine ⟨by rw [hpack, hpack2, ihA], by rw [hpack]; exact ihB,
          by rw [hpack]; exact ihC, by rw [hpack]; exact ihD, ?_, ?_⟩
        · exact ⟨4 * R + 2, by rw [hpack, hdata]⟩
        · rw [hpack]
          simp only [unpackSizesLoop]
          rw [if_neg hge]
          rw [if_neg (by rw [mask_window4, hQ]; omega)]
          rw [if_neg (by rw [mask_window3, hQ]; omega)]
          rw [if_pos (by rw [mask_window2, hQ]; omega)]
          rw [show idx + (k2 + 1) = (idx + 1) + k2 by omega]
          exact ihF
      | Four =>
        simp only [DataSize.bytes] at hsum
        have hvlt2 : v < 2 ^ (bit + 2) := by
          have := Nat.pow_lt_pow_right (by omega : 1 < 2) (show bit < bit + 2 by omega)
          omega
        have hlor : v ||| (1 <<< (bit + 2)) = 2 ^ (bit + 2) * 1 + v :=
          lor_lowbits v 1 (bit + 2) hvlt2
        have hpow2 : (2 : Nat) ^ (bit + 2) = 2 ^ bit * 4 := by
          rw [Nat.pow_succ, Nat.pow_succ]; ring
        have hpow3 : (2 : Nat) ^ (bit + 3) = 2 ^ bit * 8 := by
          rw [Nat.pow_succ, Nat.pow_succ, Nat.pow_succ]; ring
        have hvlt : 2 ^ (bit + 2) * 1 + v < 2 ^ (bit + 3) := by omega
        obtain ⟨ihA, ihB, ihC, ihD, ⟨R, ihE⟩, ihF⟩ :=
          ih k2 (2 ^ (bit + 2) * 1 + v) (bit + 3) (cum + 4) (arr.set idx .Four) (idx + 1) fuel2
            hvlt (by omega) (by omega) (by omega) (by omega) (by omega)
        have hpack : packSizesLoop (DataSize.Four :: rest) v bit cum =
            packSizesLoop rest (2 ^ (bit + 2) * 1 + v) (bit + 3) (cum + 4) := by
          simp only [packSizesLoop]
          rw [if_neg hge, hlor]
        have hpack2 : packSizesLoop (DataSize.Four :: rest.take k2) v bit cum =
            packSizesLoop (rest.take k2) (2 ^ (bit + 2) * 1 + v) (bit + 3) (cum + 4) := by
          simp only [packSizesLoop]
          rw [if_neg hge, hlor]
        have hdata : (packSizesLoop rest (2 ^ (bit + 2) * 1 + v) (bit + 3) (cum + 4)).1 =
            2 ^ bit * (8 * R + 4) + v := by
          rw [ihE, hpow2, hpow3]; ring
        have hQ : (packSizesLoop rest (2 ^ (bit + 2) * 1 + v) (bit + 3) (cum + 4)).1 >>> bit =
            8 * R + 4 := by
          rw [hdata]; exact shiftRight_mul_pow_add v (8 * R + 4) bit hv
        refine ⟨by rw [hpack, hpack2, ihA], by rw [hpack]; exact ihB,
          by rw [hpack]; exact ihC, by rw [hpack]; exact ihD, ?_, ?_⟩
        · exact ⟨8 * R + 4, by rw [hpack, hdata]⟩
        · rw [hpack]
          simp only [unpackSizesLoop]
          rw [if_neg hge]
          rw [if_neg (by rw [mask_window4, hQ]; omega)]
          rw [if_pos (by rw [mask_window3, hQ]; omega)]
          rw [show idx + (k2 + 1) = (idx + 1) + k2 by omega]
          exact ihF
      | Eight =>
        simp only [DataSize.bytes] at hsum
        have hvlt3 : v < 2 ^ (bit + 3) := by
          have := Nat.pow_lt_pow_right (by omega : 1 < 2) (show bit < bit + 3 by omega)
          omega
        have hlor : v ||| (1 <<< (bit + 3)) = 2 ^ (bit + 3) * 1 + v :=
          lor_lowbits v 1 (bit + 3) hvlt3
        have hpow3 : (2 : Nat) ^ (bit + 3) = 2 ^ bit * 8 := by
          rw [Nat.pow_succ, Nat.pow_succ, Nat.pow_succ]; ring
        have hpow4 : (2 : Nat) ^ (bit + 4) = 2 ^ bit * 16 := by
          rw [Nat.pow_succ, Nat.pow_succ, Nat.pow_succ, Nat.pow_succ]; ring
        have hvlt : 2 ^ (bit + 3) * 1 + v < 2 ^ (bit + 4) := by omega
        obtain ⟨ihA, ihB, ihC, ihD, ⟨R, ihE⟩, ihF⟩ :=
          ih k2 (2 ^ (bit + 3) * 1 + v) (bit + 4) (cum + 8) (arr.set idx .Eight) (idx + 1)
            fuel2 hvlt (by omega) (by omega) (by omega) (by omega) (by omega)
        have hpack : packSizesLoop (DataSize.Eight :: rest) v bit cum =
            packSizesLoop rest (2 ^ (bit + 3) * 1 + v) (bit + 4) (cum + 8) := by
          simp only [packSizesLoop]
          rw [if_neg hge, hlor]
        have hpack2 : packSizesLoop (DataSize.Eight :: rest.take k2) v bit cum =
            packSizesLoop (rest.take k2) (2 ^ (bit + 3) * 1 + v) (bit + 4) (cum + 8) := by
          simp only [packSizesLoop]
          rw [if_neg hge, hlor]
        have hdata : (packSizesLoop rest (2 ^ (bit + 3) * 1 + v) (bit + 4) (cum + 8)).1 =
            2 ^ bit * (16 * R + 8) + v := by
          rw [ihE, hpow3, hpow4]; ring
        have hQ : (packSizesLoop rest (2 ^ (bit + 3) * 1 + v) (bit + 4) (cum + 8)).1 >>> bit =
            16 * R + 8 := by
          rw [hdata]; exact shiftRight_mul_pow_add v (16 * R + 8) bit hv
        refine ⟨by rw [hpack, hpack2, ihA], by rw [hpack]; exact ihB,
          by rw [hpack]; exact ihC, by rw [hpack]; exact ihD, ?_, ?_⟩
        · exact ⟨16 * R + 8, by rw [hpack, hdata]⟩
        · rw [hpack]
          simp only [unpackSizesLoop]
          rw [if_neg hge]
          rw [if_pos (by rw [mask_window4, hQ]; omega)]
          rw [show idx + (k2 + 1) = (idx + 1) + k2 by omega]
          exact ihF

theorem getElem!_take_of_lt {α : Type} [Inhabited α] (l : List α) (n m : Nat) (h : m < n) :
    (l.take n)[m]! = l[m]! := by
  rw [getElem!_def, getElem!_def, List.getElem?_take_of_lt h]

/-- C3 (amended): for a 24-symbol size-tag array with a prefix of exactly `k`
symbols whose cumulative byte length is exactly 24, packing into a 3-byte
buffer and unpacking that buffer reproduces the first `k` symbols; the encoder
consumes exactly those `k` symbols and stops at cumulative length 24, and the
decoder stops with `k` symbols written and cumulative length 24. -/
theorem dataSizes_roundtrip (sizes : List DataSize) (k : Nat) (buf : List Nat)
    (hlen : sizes.length = 24) (hbuf : buf.length = 3) (hk : k ≤ 24)
    (hsum : ((sizes.take k).map DataSize.bytes).sum = 24) :
    ∃ arr : List DataSize,
      dataSizesUnpack (dataSizesPack sizes buf).2 = .ok arr ∧
        (∀ j, j < k → arr[j]! = sizes[j]!) ∧
        dataSizesPack sizes buf = dataSizesPack (sizes.take k) buf ∧
        (packSizesLoop sizes 0 0 0).2.2 = 24 ∧
        ∃ bitF,
          unpackSizesLoop (packSizesLoop sizes 0 0 0).1 24 (List.replicate 24 .One) 0 0 0 =
            some (arr, k, bitF, 24) := by
  obtain ⟨hA, hB, hC, hD, -, hF⟩ :=
    sizes_aux sizes k 0 0 0 (List.replicate 24 .One) 0 24 (by norm_num) (Nat.le_refl 0)
      (by omega) (by omega) (by omega) (by omega)
  have hv24 : (packSizesLoop sizes 0 0 0).1 < 16777216 := by
    have hle : (2 : Nat) ^ (packSizesLoop sizes 0 0 0).2.1 ≤ 2 ^ 24 :=
      Nat.pow_le_pow_right (by omega) hD
    calc (packSizesLoop sizes 0 0 0).1 < 2 ^ (packSizesLoop sizes 0 0 0).2.1 := hC
      _ ≤ 2 ^ 24 := hle
      _ = 16777216 := by norm_num
  have hpackeq : (dataSizesPack sizes buf).2 =
      [(packSizesLoop sizes 0 0 0).1 % 256, (packSizesLoop sizes 0 0 0).1 / 256 % 256,
        (packSizesLoop sizes 0 0 0).1 / 65536 % 256] := by
    simp only [dataSizesPack]
    rw [if_neg (by omega)]
    simp only [copyRange, List.take_zero, List.drop_eq_nil_of_le (by omega : buf.length ≤ 3),
      List.nil_append, List.append_nil]
  refine ⟨setSeq (List.replicate 24 .One) 0 (sizes.take k), ?_, ?_, ?_, hB, ?_⟩
  · rw [hpackeq]
    simp only [dataSizesUnpack]
    rw [if_neg (by simp)]
    simp only [List.getElem!_cons_zero, List.getElem!_cons_succ]
    have hdata : (packSizesLoop sizes 0 0 0).1 % 256 +
        (packSizesLoop sizes 0 0 0).1 / 256 % 256 * 256 +
        (packSizesLoop sizes 0 0 0).1 / 65536 % 256 * 65536 = (packSizesLoop sizes 0 0 0).1 := by
      omega
    rw [hdata, hF]
  · intro j hj
    have hjlen : j < (sizes.take k).length := by
      rw [List.length_take]
      omega
    have := setSeq_get (sizes.take k) (List.replicate 24 .One) 0 j
      (by rw [List.length_replicate, List.length_take]; omega) hjlen
    rw [Nat.zero_add] at this
    rw [this]
    exact getElem!_take_of_lt sizes k j hj
  · simp only [dataSizesPack]
    rw [hA]
  · exact ⟨(packSizesLoop sizes 0 0 0).2.1, by rw [hF, Nat.zero_add]⟩

/-- C3 witness: the repository's own test vector (sizes One, Two, Four, Eight
then Ones) reaches cumulative length 24 exactly at symbol 13. -/
theorem dataSizes_roundtrip_witness :
    ∃ arr : List DataSize,
      dataSizesUnpack
          (dataSizesPack
            ((List.replicate 24 DataSize.One).set 1 .Two |>.set 2 .Four |>.set 3 .Eight)
            [0, 0, 0]).2 = .ok arr ∧
        (∀ j, j < 13 →
          arr[j]! =
            ((List.replicate 24 DataSize.One).set 1 .Two |>.set 2 .Four |>.set 3 .Eight)[j]!) ∧
        dataSizesPack
            ((List.replicate 24 DataSize.One).set 1 .Two |>.set 2 .Four |>.set 3 .Eight)
            [0, 0, 0] =
          dataSizesPack
            (((List.replicate 24 DataSize.One).set 1 .Two |>.set 2 .Four |>.set 3 .Eight).take 13)
            [0, 0, 0] ∧
        (packSizesLoop
            ((List.replicate 24 DataSize.One).set 1 .Two |>.set 2 .Four |>.set 3 .Eight)
            0 0 0).2.2 = 24 ∧
        ∃ bitF,
          unpackSizesLoop
              (packSizesLoop
                ((List.replicate 24 DataSize.One).set 1 .Two |>.set 2 .Four |>.set 3 .Eight)
                0 0 0).1
              24 (List.replicate 24 .One) 0 0 0 =
            some (arr, 13, bitF, 24) :=
  dataSizes_roundtrip _ 13 _ (by decide) (by decide) (by decide) (by decide)

/-- C3 counterexample to the claim as stated: the 24-symbol array of 23 Ones
followed by one Eight has cumulative byte length 31 ≥ 24, but
unpack-of-pack does not reproduce its prefix: the Eight's codeword is written
at bit 26, beyond the 3-byte buffer, and the decoder spins forever on the
truncated data (modelled as `diverge`). -/
theorem dataSizes_roundtrip_cex :
    dataSizesUnpack
        ((dataSizesPack (List.replicate 23 DataSize.One ++ [DataSize.Eight]) [0, 0, 0]).2) =
      .diverge ∧
      24 ≤ (((List.replicate 23 DataSize.One ++ [DataSize.Eight]).take 24).map
        DataSize.bytes).sum ∧
      (List.replicate 23 DataSize.One ++ [DataSize.Eight]).length = 24 := by
  refine ⟨by decide, by decide, by decide⟩

theorem unpackTypesLoop_done (data fuel : Nat) (arr : List DataType) (idx bit : Nat)
    (h : 24 ≤ bit) : unpackTypesLoop data fuel arr idx bit = some (arr, idx, bit) := by
  cases fuel <;> (simp only [unpackTypesLoop]; rw [if_pos h])

/-- If no size pattern matches at the current bit position, the loop state
never changes again: the Rust loop spins forever. -/
theorem unpackSizesLoop_stuck (data : Nat) (arr : List DataSize) (idx bit cum : Nat)
    (hcum : ¬ 24 ≤ cum)
    (h8 : ¬ data &&& (15 <<< bit) = 8 <<< bit) (h4 : ¬ data &&& (7 <<< bit) = 4 <<< bit)
    (h2 : ¬ data &&& (3 <<< bit) = 2 <<< bit) (h1 : ¬ data &&& (1 <<< bit) = 1 <<< bit) :
    ∀ fuel, unpackSizesLoop data fuel arr idx bit cum = none := by
  intro fuel
  induction fuel with
  | zero =>
    simp only [unpackSizesLoop]
    rw [if_neg hcum]
  | succ f ihf =>
    simp only [unpackSizesLoop]
    rw [if_neg hcum, if_neg h8, if_neg h4, if_neg h2, if_neg h1]
    exact ihf

/-- Same for the type loop. -/
theorem unpackTypesLoop_stuck (data : Nat) (arr : List DataType) (idx bit : Nat)
    (hbit : ¬ 24 ≤ bit)
    (h4 : ¬ data &&& (7 <<< bit) = 4 <<< bit) (h2 : ¬ data &&& (3 <<< bit) = 2 <<< bit)
    (h1 : ¬ data &&& (1 <<< bit) = 1 <<< bit) :
    ∀ fuel, unpackTypesLoop data fuel arr idx bit = none := by
  intro fuel
  induction fuel with
  | zero =>
    simp only [unpackTypesLoop]
    rw [if_neg hbit]
  | succ f ihf =>
    simp only [unpackTypesLoop]
    rw [if_neg hbit, if_neg h4, if_neg h2, if_neg h1]
    exact ihf

/-- If the size loop terminates with any amount of fuel, then `24 - cum` units
of fuel (24 from the initial state) already suffice and give the same result:
every productive iteration raises the cumulative length by at least one, and a
non-productive state is stuck forever. -/
theorem unpackSizesLoop_fuel_bound :
    ∀ (fuel data : Nat) (arr : List DataSize) (idx bit cum : Nat)
      (r : List DataSize × Nat × Nat × Nat),
      unpackSizesLoop data fuel arr idx bit cum = some r →
      ∀ fuel2, 24 - cum ≤ fuel2 → unpackSizesLoop data fuel2 arr idx bit cum = some r := by
  intro fuel
  induction fuel with
  | zero =>
    intro data arr idx bit cum r h fuel2 hf2
    by_cases hge : 24 ≤ cum
    · rw [unpackSizesLoop_done _ _ _ _ _ _ hge] at h
      rw [unpackSizesLoop_done _ _ _ _ _ _ hge]
      exact h
    · exfalso
      simp only [unpackSizesLoop] at h
      rw [if_neg hge] at h
      cases h
  | succ f ihf =>
    intro data arr idx bit cum r h fuel2 hf2
    by_cases hge : 24 ≤ cum
    · rw [unpackSizesLoop_done _ _ _ _ _ _ hge] at h
      rw [unpackSizesLoop_done _ _ _ _ _ _ hge]
      exact h
    · rcases fuel2 with _ | f2
      · exfalso; omega
      simp only [unpackSizesLoop] at h ⊢
      rw [if_neg hge] at h ⊢
      by_cases h8 : data &&& (15 <<< bit) = 8 <<< bit
      · rw [if_pos h8] at h ⊢
        exact ihf _ _ _ _ _ _ h f2 (by omega)
      rw [if_neg h8] at h ⊢
      by_cases h4 : data &&& (7 <<< bit) = 4 <<< bit
      · rw [if_pos h4] at h ⊢
        exact ihf _ _ _ _ _ _ h f2 (by omega)
      rw [if_neg h4] at h ⊢
      by_cases h2 : data &&& (3 <<< bit) = 2 <<< bit
      · rw [if_pos h2] at h ⊢
        exact ihf _ _ _ _ _ _ h f2 (by omega)
      rw [if_neg h2] at h ⊢
      by_cases h1 : data &&& (1 <<< bit) = 1 <<< bit
      · rw [if_pos h1] at h ⊢
        exact ihf _ _ _ _ _ _ h f2 (by omega)
      exfalso
      rw [if_neg h1] at h
      rw [unpackSizesLoop_stuck data arr idx bit cum hge h8 h4 h2 h1 f] at h
      cases h

/-- Fuel bound for the type loop (`24 - bit` iterations suffice). -/
theorem unpackTypesLoop_fuel_bound :
    ∀ (fuel data : Nat) (arr : List DataType) (idx bit : Nat) (r : List DataType × Nat × Nat),
      unpackTypesLoop data fuel arr idx bit = some r →
      ∀ fuel2, 24 - bit ≤ fuel2 → unpackTypesLoop data fuel2 arr idx bit = some r := by
  intro fuel
  induction fuel with
  | zero =>
    intro data arr idx bit r h fuel2 hf2
    by_cases hge : 24 ≤ bit
    · rw [unpackTypesLoop_done _ _ _ _ _ hge] at h
      rw [unpackTypesLoop_done _ _ _ _ _ hge]
      exact h
    · exfalso
      simp only [unpackTypesLoop] at h
      rw [if_neg hge] at h
      cases h
  | succ f ihf =>
    intro data arr idx bit r h fuel2 hf2
    by_cases hge : 24 ≤ bit
    · rw [unpackTypesLoop_done _ _ _ _ _ hge] at h
      rw [unpackTypesLoop_done _ _ _ _ _ hge]
      exact h
    · rcases fuel2 with _ | f2
      · exfalso; omega
      simp only [unpackTypesLoop] at h ⊢
      rw [if_neg hge] at h ⊢
      by_cases h4 : data &&& (7 <<< bit) = 4 <<< bit
      · rw [if_pos h4] at h ⊢
        exact ihf _ _ _ _ _ h f2 (by omega)
      rw [if_neg h4] at h ⊢
      by_cases h2 : data &&& (3 <<< bit) = 2 <<< bit
      · rw [if_pos h2] at h ⊢
        exact ihf _ _ _ _ _ h f2 (by omega)
      rw [if_neg h2] at h ⊢
      by_cases h1 : data &&& (1 <<< bit) = 1 <<< bit
      · rw [if_pos h1] at h ⊢
        exact ihf _ _ _ _ _ h f2 (by omega)
      exfalso
      rw [if_neg h1] at h
      rw [unpackTypesLoop_stuck data arr idx bit hge h4 h2 h1 f] at h
      cases h

/-- C9 (amended): the decode loops do *not* terminate for arbitrary bit
patterns — on the all-zero 3-byte buffer neither loop ever finishes, for any
number of iterations — but whenever a loop terminates at all it terminates
within `24 - cum` (resp. `24 - bit`) iterations, so 24 iterations from the
initial state decide termination exactly. -/
theorem unpack_loops_termination :
    (∀ fuel, unpackSizesLoop 0 fuel (List.replicate 24 DataSize.One) 0 0 0 = none) ∧
      (∀ fuel, unpackTypesLoop 0 fuel (List.replicate 24 DataType.Unsigned) 0 0 = none) ∧
      (∀ (fuel data : Nat) (arr : List DataSize) (idx bit cum : Nat)
        (r : List DataSize × Nat × Nat × Nat),
        unpackSizesLoop data fuel arr idx bit cum = some r →
        ∀ fuel2, 24 - cum ≤ fuel2 → unpackSizesLoop data fuel2 arr idx bit cum = some r) ∧
      (∀ (fuel data : Nat) (arr : List DataType) (idx bit : Nat)
        (r : List DataType × Nat × Nat),
        unpackTypesLoop data fuel arr idx bit = some r →
        ∀ fuel2, 24 - bit ≤ fuel2 → unpackTypesLoop data fuel2 arr idx bit = some r) ∧
      dataSizesUnpack [0, 0, 0] = .diverge ∧ dataTypesUnpack [0, 0, 0] = .diverge := by
  have hzero8 : ∀ bit : Nat, ¬ (0 : Nat) &&& (15 <<< bit) = 8 <<< bit := by
    intro bit h
    rw [Nat.zero_and, Nat.shiftLeft_eq] at h
    have := Nat.two_pow_pos bit
    omega
  have hzero4 : ∀ bit : Nat, ¬ (0 : Nat) &&& (7 <<< bit) = 4 <<< bit := by
    intro bit h
    rw [Nat.zero_and, Nat.shiftLeft_eq] at h
    have := Nat.two_pow_pos bit
    omega
  have hzero2 : ∀ bit : Nat, ¬ (0 : Nat) &&& (3 <<< bit) = 2 <<< bit := by
    intro bit h
    rw [Nat.zero_and, Nat.shiftLeft_eq] at h
    have := Nat.two_pow_pos bit
    omega
  have hzero1 : ∀ bit : Nat, ¬ (0 : Nat) &&& (1 <<< bit) = 1 <<< bit := by
    intro bit h
    rw [Nat.zero_and, Nat.shiftLeft_eq] at h
    have := Nat.two_pow_pos bit
    omega
  refine ⟨?_, ?_, unpackSizesLoop_fuel_bound, unpackTypesLoop_fuel_bound, by decide, by decide⟩
  · exact unpackSizesLoop_stuck 0 _ 0 0 0 (by omega) (hzero8 0) (hzero4 0) (hzero2 0) (hzero1 0)
  · exact unpackTypesLoop_stuck 0 _ 0 0 (by omega) (hzero4 0) (hzero2 0) (hzero1 0)

/-- C9 witness: the fuel bound applied at a concrete terminating run (the
all-ones data terminates in 24 iterations from the initial state). -/
theorem unpack_loops_termination_witness :
    unpackSizesLoop 16777215 24 (List.replicate 24 DataSize.One) 0 0 0 =
      some (List.replicate 24 DataSize.One, 24, 24, 24) ∧
      unpackTypesLoop 16777215 24 (List.replicate 24 DataType.Unsigned) 0 0 =
        some (List.replicate 24 DataType.Unsigned, 24, 24) := by
  constructor
  · exact unpack_loops_termination.2.2.1 30 16777215 (List.replicate 24 DataSize.One) 0 0 0
      (List.replicate 24 DataSize.One, 24, 24, 24) (by decide) 24 (by decide)
  · exact unpack_loops_termination.2.2.2.1 30 16777215 (List.replicate 24 DataType.Unsigned) 0 0
      (List.replicate 24 DataType.Unsigned, 24, 24) (by decide) 24 (by decide)

/-- C9 counterexample to the claim as stated: on the all-zero 3-byte buffer
neither decode loop terminates (no pattern ever matches at bit 0, the state
never changes, and the loop never reaches its bound), so both unpackers
diverge. -/
theorem unpack_loops_diverge_cex :
    dataSizesUnpack [0, 0, 0] = .diverge ∧ dataTypesUnpack [0, 0, 0] = .diverge := by
  exact ⟨by decide, by decide⟩

/-- The field-name loop reads past the end of any buffer shorter than
`8 + (i + rem) * 10` bytes. -/
theorem fieldsLoop_panics :
    ∀ (rem i : Nat) (fields : List (List Nat)) (buffer : List Nat),
      buffer.length < 8 + (i + rem) * 10 → 1 ≤ rem →
      fieldsLoop buffer rem i fields = .panicked := by
  intro rem
  induction rem with
  | zero => intro i fields buffer _ h1; exact absurd h1 (by omega)
  | succ rem2 ih =>
    intro i fields buffer hlen _
    by_cases hle : 8 + (i + 1) * 10 ≤ buffer.length
    · simp only [fieldsLoop]
      rw [if_pos hle]
      rcases rem2 with _ | rem3
      · exfalso; omega
      · exact ih (i + 1) _ buffer (by omega) (by omega)
    · simp only [fieldsLoop]
      rw [if_neg hle]

theorem dataSizesUnpack_cases (b : List Nat) (h : ¬ b.length < 3) :
    (∃ arr, dataSizesUnpack b = .ok arr) ∨ dataSizesUnpack b = .diverge := by
  simp only [dataSizesUnpack]
  rw [if_neg h]
  cases hmatch : unpackSizesLoop (b[0]! + b[1]! * 256 + b[2]! * 65536) 24
      (List.replicate 24 .One) 0 0 0 with
  | some r => exact .inl ⟨r.1, rfl⟩
  | none => exact .inr rfl

theorem dataTypesUnpack_cases (b : List Nat) (h : ¬ b.length < 3) :
    (∃ arr, dataTypesUnpack b = .ok arr) ∨ dataTypesUnpack b = .diverge := by
  simp only [dataTypesUnpack]
  rw [if_neg h]
  cases hmatch : unpackTypesLoop (b[0]! + b[1]! * 256 + b[2]! * 65536) 24
      (List.replicate 24 .Unsigned) 0 0 with
  | some r => exact .inl ⟨r.1, rfl⟩
  | none => exact .inr rfl

/-- C10 (amended): `DecodeInstructions::unpack` returns
`Err(InvalidBufferSize)` for every buffer shorter than 8 bytes (its only
length check), but for every buffer of length 8..247 it never returns at all:
either one of the tag decode loops spins forever, or the field-name loop
indexes the buffer out of bounds (a panic) while trying to read the 240 name
bytes at offsets 8..248. -/
theorem decodeInstructions_unpack_short (buffer : List Nat) :
    (buffer.length < 8 → DecodeInstructions.unpack buffer = .err .InvalidBufferSize) ∧
      (8 ≤ buffer.length → buffer.length < 248 →
        DecodeInstructions.unpack buffer = .panicked ∨
          DecodeInstructions.unpack buffer = .diverge) := by
  constructor
  · intro h
    simp only [DecodeInstructions.unpack]
    rw [if_pos h]
  · intro h8 h248
    have hs3 : ¬ (slice buffer 2 5).length < 3 := by
      simp only [slice, List.length_take, List.length_drop]
      omega
    have ht3 : ¬ (slice buffer 5 8).length < 3 := by
      simp only [slice, List.length_take, List.length_drop]
      omega
    simp only [DecodeInstructions.unpack]
    rw [if_neg (by omega)]
    rcases dataSizesUnpack_cases (slice buffer 2 5) hs3 with ⟨arrS, hS⟩ | hS
    · rw [hS]
      rcases dataTypesUnpack_cases (slice buffer 5 8) ht3 with ⟨arrT, hT⟩ | hT
      · rw [hT]
        rw [fieldsLoop_panics 24 0 _ buffer (by omega) (by omega)]
        exact .inl rfl
      · rw [hT]
        exact .inr rfl
    · rw [hS]
      exact .inr rfl

/-- C10 witness: the empty buffer is rejected; a length-8 buffer with
well-formed tag bytes makes the field loop read out of bounds. -/
theorem decodeInstructions_unpack_short_witness :
    DecodeInstructions.unpack [] = .err .InvalidBufferSize ∧
      (DecodeInstructions.unpack [0, 0, 255, 255, 255, 255, 255, 255] = .panicked ∨
        DecodeInstructions.unpack [0, 0, 255, 255, 255, 255, 255, 255] = .diverge) := by
  constructor
  · exact (decodeInstructions_unpack_short []).1 (by decide)
  · exact (decodeInstructions_unpack_short [0, 0, 255, 255, 255, 255, 255, 255]).2 (by decide)
      (by decide)

/-- C10 counterexample to the claim as stated: a length-8 buffer is shorter
than 248 bytes, yet unpack does not return `Err(InvalidBufferSize)` — it
reads out of bounds (panics) in the field-name loop. -/
theorem decodeInstructions_unpack_cex :
    DecodeInstructions.unpack [0, 0, 255, 255, 255, 255, 255, 255] = .panicked := by
  decide

/-! ### List plumbing for the fixed-field codec -/

theorem get_set2_0 (l : List Nat) (x y : Nat) (h : 0 < l.length) :
    ((l.set 0 x).set 1 y)[0]! = x := by
  rw [getElem!_set_ne (by omega), getElem!_set_self h]

theorem get_set2_1 (l : List Nat) (x y : Nat) (h : 1 < l.length) :
    ((l.set 0 x).set 1 y)[1]! = y := by
  rw [getElem!_set_self (by simpa using h)]

theorem get_set4_0 (l : List Nat) (a b c d : Nat) (h : 0 < l.length) :
    ((((l.set 0 a).set 1 b).set 2 c).set 3 d)[0]! = a := by
  rw [getElem!_set_ne (by omega), getElem!_set_ne (by omega), getElem!_set_ne (by omega),
    getElem!_set_self h]

theorem get_set4_1 (l : List Nat) (a b c d : Nat) (h : 1 < l.length) :
    ((((l.set 0 a).set 1 b).set 2 c).set 3 d)[1]! = b := by
  rw [getElem!_set_ne (by omega), getElem!_set_ne (by omega),
    getElem!_set_self (by simpa using h)]

theorem get_set4_2 (l : List Nat) (a b c d : Nat) (h : 2 < l.length) :
    ((((l.set 0 a).set 1 b).set 2 c).set 3 d)[2]! = c := by
  rw [getElem!_set_ne (by omega), getElem!_set_self (by simp only [List.length_set]; omega)]

theorem get_set4_3 (l : List Nat) (a b c d : Nat) (h : 3 < l.length) :
    ((((l.set 0 a).set 1 b).set 2 c).set 3 d)[3]! = d := by
  rw [getElem!_set_self (by simp only [List.length_set]; omega)]

theorem set2_eq (l : List Nat) (x y : Nat) (h : l.length = 2) :
    (l.set 0 x).set 1 y = [x, y] := by
  obtain ⟨a, b, rfl⟩ := List.length_eq_two.mp h
  rfl

theorem set4_eq (l : List Nat) (a b c d : Nat) (h : l.length = 4) :
    (((l.set 0 a).set 1 b).set 2 c).set 3 d = [a, b, c, d] := by
  rcases l with _ | ⟨x0, _ | ⟨x1, _ | ⟨x2, _ | ⟨x3, _ | ⟨x4, t⟩⟩⟩⟩⟩ <;> simp_all

theorem u16le_pair (b0 b1 : Nat) (h0 : b0 < 256) (h1 : b1 < 256) :
    u16le (b0 + 256 * b1) = [b0, b1] := by
  have h := u16le_fromLE b0 b1 h0 h1
  simp only [u16fromLE, List.getElem!_cons_zero, List.getElem!_cons_succ] at h
  exact h

theorem copyRange_append (pre mid rest src : List Nat) (a b : Nat)
    (ha : pre.length = a) (hb : b = a + mid.length) :
    copyRange (pre ++ (mid ++ rest)) a b src = pre ++ (src ++ rest) := by
  unfold copyRange
  rw [List.take_left' ha, hb, ← ha, ← List.drop_drop, List.drop_left, List.drop_left,
    List.append_assoc]

theorem slice_append_drop (l : List Nat) (a b : Nat) (h : a ≤ b) :
    slice l a b ++ l.drop b = l.drop a := by
  unfold slice
  have hd : l.drop b = (l.drop a).drop (b - a) := by
    rw [List.drop_drop]
    congr 1
    omega
  rw [hd, List.take_append_drop]

theorem slice_cons (l : List Nat) (a b : Nat) (h1 : a < b) (h2 : a < l.length) :
    slice l a b = l[a]! :: slice l (a + 1) b := by
  unfold slice
  rw [List.drop_eq_getElem_cons h2, getElem!_pos l a h2]
  have hba : b - a = (b - (a + 1)) + 1 := by omega
  rw [hba, List.take_succ_cons]

theorem slice_nil (l : List Nat) (a b : Nat) (h : b ≤ a) : slice l a b = [] := by
  unfold slice
  rw [show b - a = 0 from by omega]
  rfl

/-! ### Fixed-field views on exact-size buffers -/

theorem numpad_pack_ok (np : Numpad) (l : List Nat) (h : ¬ l.length < 2) :
    Numpad.pack np l =
      (.ok (),
        (l.set 0 (byte8 np.zero np.one np.two np.three np.four np.five np.six np.seven)).set 1
          (byte2 np.eight np.nine)) := by
  simp only [Numpad.pack]
  rw [if_neg h]

theorem numpad_unpack_pack (np : Numpad) (l : List Nat) (h : l.length = 2) :
    Numpad.unpack ((Numpad.pack np l).2) = .ok np := by
  rcases np with ⟨z, o, tw, th, fo, fi, si, se, ei, ni⟩
  rw [numpad_pack_ok _ _ (by omega)]
  simp only [Numpad.unpack]
  rw [if_neg (by simp only [List.length_set]; omega)]
  rw [get_set2_0 _ _ _ (by omega), get_set2_1 _ _ _ (by omega)]
  simp only [byte8_bit7, byte8_bit6, byte8_bit5, byte8_bit4, byte8_bit3, byte8_bit2, byte8_bit1,
    byte8_bit0, byte2_bit7, byte2_bit6]

theorem numpad_repack (b0 b1 : Nat) (l : List Nat) (h0 : b0 < 256) (h1 : b1 < 256)
    (hpad : b1 &&& 63 = 0) (hl : l.length = 2) :
    ∃ np, Numpad.unpack [b0, b1] = .ok np ∧ Numpad.pack np l = (.ok (), [b0, b1]) := by
  refine ⟨_, rfl, ?_⟩
  rw [numpad_pack_ok _ _ (by omega), set2_eq _ _ _ hl]
  simp only [List.getElem!_cons_zero, List.getElem!_cons_succ]
  rw [byte8_recon b0 h0, byte2_recon b1 h1 hpad]

theorem analog_pack_ok (an : AnalogInputs) (l : List Nat) (h : l.length = 12) :
    AnalogInputs.pack an l =
      (.ok (),
        u16le an.a0 ++ (u16le an.a1 ++ (u16le an.a2 ++ (u16le an.a3 ++
          (u16le an.a4 ++ u16le an.a5))))) := by
  simp only [AnalogInputs.pack]
  rw [if_neg (by omega)]
  have e1 : copyRange l 0 2 (u16le an.a0) = u16le an.a0 ++ l.drop 2 := by
    simp [copyRange]
  have e2 : copyRange (u16le an.a0 ++ l.drop 2) 2 4 (u16le an.a1) =
      u16le an.a0 ++ (u16le an.a1 ++ l.drop 4) := by
    have h2 := copyRange_append (u16le an.a0) ((l.drop 2).take 2) ((l.drop 2).drop 2)
      (u16le an.a1) 2 4 rfl (by simp [u16le]; omega)
    rw [List.take_append_drop, List.drop_drop] at h2
    norm_num at h2
    exact h2
  have e3 : copyRange (u16le an.a0 ++ (u16le an.a1 ++ l.drop 4)) 4 6 (u16le an.a2) =
      u16le an.a0 ++ (u16le an.a1 ++ (u16le an.a2 ++ l.drop 6)) := by
    have h3 := copyRange_append (u16le an.a0 ++ u16le an.a1) ((l.drop 4).take 2)
      ((l.drop 4).drop 2) (u16le an.a2) 4 6 (by simp [u16le]) (by simp [u16le]; omega)
    rw [List.take_append_drop, List.drop_drop] at h3
    norm_num at h3
    simpa [List.append_assoc] using h3
  have e4 : copyRange (u16le an.a0 ++ (u16le an.a1 ++ (u16le an.a2 ++ l.drop 6))) 6 8
      (u16le an.a3) =
      u16le an.a0 ++ (u16le an.a1 ++ (u16le an.a2 ++ (u16le an.a3 ++ l.drop 8))) := by
    have h4 := copyRange_append (u16le an.a0 ++ (u16le an.a1 ++ u16le an.a2))
      ((l.drop 6).take 2) ((l.drop 6).drop 2) (u16le an.a3) 6 8 (by simp [u16le])
      (by simp [u16le]; omega)
    rw [List.take_append_drop, List.drop_drop] at h4
    norm_num at h4
    simpa [List.append_assoc] using h4
  have e5 : copyRange
        (u16le an.a0 ++ (u16le an.a1 ++ (u16le an.a2 ++ (u16le an.a3 ++ l.drop 8)))) 8 10
        (u16le an.a4) =
      u16le an.a0 ++ (u16le an.a1 ++ (u16le an.a2 ++ (u16le an.a3 ++
        (u16le an.a4 ++ l.drop 10)))) := by
    have h5 := copyRange_append (u16le an.a0 ++ (u16le an.a1 ++ (u16le an.a2 ++ u16le an.a3)))
      ((l.drop 8).take 2) ((l.drop 8).drop 2) (u16le an.a4) 8 10 (by simp [u16le])
      (by simp [u16le]; omega)
    rw [List.take_append_drop, List.drop_drop] at h5
    norm_num at h5
    simpa [List.append_assoc] using h5
  have e6 : copyRange
        (u16le an.a0 ++ (u16le an.a1 ++ (u16le an.a2 ++ (u16le an.a3 ++
          (u16le an.a4 ++ l.drop 10))))) 10 12 (u16le an.a5) =
      u16le an.a0 ++ (u16le an.a1 ++ (u16le an.a2 ++ (u16le an.a3 ++
        (u16le an.a4 ++ (u16le an.a5 ++ l.drop 12))))) := by
    have h6 := copyRange_append
      (u16le an.a0 ++ (u16le an.a1 ++ (u16le an.a2 ++ (u16le an.a3 ++ u16le an.a4))))
      ((l.drop 10).take 2) ((l.drop 10).drop 2) (u16le an.a5) 10 12 (by simp [u16le])
      (by simp [u16le]; omega)
    rw [List.take_append_drop, List.drop_drop] at h6
    norm_num at h6
    simpa [List.append_assoc] using h6
  rw [e1, e2, e3, e4, e5, e6, List.drop_eq_nil_of_le (by omega), List.append_nil]

theorem analog_unpack_pack (an : AnalogInputs) (l : List Nat) (h : l.length = 12)
    (hvalid : an.Valid) : AnalogInputs.unpack ((AnalogInputs.pack an l).2) = .ok an := by
  rcases an with ⟨a0, a1, a2, a3, a4, a5⟩
  obtain ⟨h0, h1, h2, h3, h4, h5⟩ := hvalid
  dsimp only at h0 h1 h2 h3 h4 h5
  rw [analog_pack_ok _ _ h]
  simp only [AnalogInputs.unpack, u16le]
  rw [if_neg (by simp)]
  simp only [slice, u16fromLE, List.drop_zero, List.cons_append, List.nil_append,
    List.drop_succ_cons, List.take_succ_cons, List.take_zero, List.getElem!_cons_zero,
    List.getElem!_cons_succ]
  simp only [Except.ok.injEq, AnalogInputs.mk.injEq]
  refine ⟨by omega, by omega, by omega, by omega, by omega, by omega⟩

theorem analog_repack (c0 c1 c2 c3 c4 c5 c6 c7 c8 c9 c10 c11 : Nat) (l : List Nat)
    (hc : c0 < 256 ∧ c1 < 256 ∧ c2 < 256 ∧ c3 < 256 ∧ c4 < 256 ∧ c5 < 256 ∧ c6 < 256 ∧
      c7 < 256 ∧ c8 < 256 ∧ c9 < 256 ∧ c10 < 256 ∧ c11 < 256)
    (hl : l.length = 12) :
    ∃ an, AnalogInputs.unpack [c0, c1, c2, c3, c4, c5, c6, c7, c8, c9, c10, c11] = .ok an ∧
      AnalogInputs.pack an l = (.ok (), [c0, c1, c2, c3, c4, c5, c6, c7, c8, c9, c10, c11]) := by
  obtain ⟨h0, h1, h2, h3, h4, h5, h6, h7, h8, h9, h10, h11⟩ := hc
  refine ⟨_, rfl, ?_⟩
  rw [analog_pack_ok _ _ hl]
  simp only [slice, u16fromLE, List.drop_zero, List.cons_append, List.nil_append,
    List.drop_succ_cons, List.take_succ_cons, List.take_zero, List.getElem!_cons_zero,
    List.getElem!_cons_succ]
  rw [u16le_pair c0 c1 h0 h1, u16le_pair c2 c3 h2 h3, u16le_pair c4 c5 h4 h5,
    u16le_pair c6 c7 h6 h7, u16le_pair c8 c9 h8 h9, u16le_pair c10 c11 h10 h11]
  rfl

theorem keypad_pack_ok (kp : Keypad) (l : List Nat) (h : ¬ l.length < 4) :
    Keypad.pack kp l =
      (.ok (),
        ((((l.set 0 (byte8 kp.shift kp.a kp.b kp.c kp.d kp.e kp.f kp.g)).set 1
              (byte8 kp.h kp.i kp.j kp.k kp.l kp.m kp.n kp.o)).set 2
            (byte8 kp.p kp.q kp.r kp.s kp.t kp.u kp.v kp.w)).set 3
          (byte5 kp.x kp.y kp.z kp.enter kp.backspace))) := by
  simp only [Keypad.pack]
  rw [if_neg h]

theorem keypad_unpack_pack (kp : Keypad) (l : List Nat) (h : l.length = 4) :
    Keypad.unpack ((Keypad.pack kp l).2) = .ok kp := by
  rcases kp with ⟨k1, k2, k3, k4, k5, k6, k7, k8, k9, k10, k11, k12, k13, k14, k15, k16, k17,
    k18, k19, k20, k21, k22, k23, k24, k25, k26, k27, k28, k29⟩
  rw [keypad_pack_ok _ _ (by omega)]
  simp only [Keypad.unpack]
  rw [if_neg (by simp only [List.length_set]; omega)]
  rw [get_set4_0 _ _ _ _ _ (by omega), get_set4_1 _ _ _ _ _ (by omega),
    get_set4_2 _ _ _ _ _ (by omega), get_set4_3 _ _ _ _ _ (by omega)]
  simp only [byte8_bit7, byte8_bit6, byte8_bit5, byte8_bit4, byte8_bit3, byte8_bit2, byte8_bit1,
    byte8_bit0, byte5_bit7, byte5_bit6, byte5_bit5, byte5_bit4, byte5_bit3]

theorem keypad_repack (b0 b1 b2 b3 : Nat) (l : List Nat) (h0 : b0 < 256) (h1 : b1 < 256)
    (h2 : b2 < 256) (h3 : b3 < 256) (hpad : b3 &&& 7 = 0) (hl : l.length = 4) :
    ∃ kp, Keypad.unpack [b0, b1, b2, b3] = .ok kp ∧
      Keypad.pack kp l = (.ok (), [b0, b1, b2, b3]) := by
  refine ⟨_, rfl, ?_⟩
  rw [keypad_pack_ok _ _ (by omega), set4_eq _ _ _ _ _ hl]
  simp only [List.getElem!_cons_zero, List.getElem!_cons_succ]
  rw [byte8_recon b0 h0, byte8_recon b1 h1, byte8_recon b2 h2, byte5_recon b3 h3 hpad]

theorem auxiliary_pack_ok (aux : Auxiliary) (l : List Nat) (h : ¬ l.length < 4) :
    Auxiliary.pack aux l =
      (.ok (),
        ((((l.set 0
              (byte8 aux.exclamation aux.atSign aux.hash aux.dollar aux.percent aux.caret
                aux.and aux.star)).set 1
              (byte8 aux.left_paren aux.right_paren aux.minus aux.underscore aux.plus aux.equal
                aux.backtick aux.tilde)).set 2
            (byte8 aux.left_square aux.right_square aux.left_curly aux.right_curly aux.backslash
              aux.pipe aux.semicolon aux.colon)).set 3
          (byte8 aux.single_quote aux.double_quote aux.comma aux.period aux.less_than
            aux.greater_than aux.forwardslash aux.question))) := by
  simp only [Auxiliary.pack]
  rw [if_neg h]

theorem auxiliary_unpack_pack (aux : Auxiliary) (l : List Nat) (h : l.length = 4) :
    Auxiliary.unpack ((Auxiliary.pack aux l).2) = .ok aux := by
  rcases aux with ⟨x1, x2, x3, x4, x5, x6, x7, x8, x9, x10, x11, x12, x13, x14, x15, x16, x17,
    x18, x19, x20, x21, x22, x23, x24, x25, x26, x27, x28, x29, x30, x31, x32⟩
  rw [auxiliary_pack_ok _ _ (by omega)]
  simp only [Auxiliary.unpack]
  rw [if_neg (by simp only [List.length_set]; omega)]
  rw [get_set4_0 _ _ _ _ _ (by omega), get_set4_1 _ _ _ _ _ (by omega),
    get_set4_2 _ _ _ _ _ (by omega), get_set4_3 _ _ _ _ _ (by omega)]
  simp only [byte8_bit7, byte8_bit6, byte8_bit5, byte8_bit4, byte8_bit3, byte8_bit2, byte8_bit1,
    byte8_bit0]

theorem auxiliary_repack (b0 b1 b2 b3 : Nat) (l : List Nat) (h0 : b0 < 256) (h1 : b1 < 256)
    (h2 : b2 < 256) (h3 : b3 < 256) (hl : l.length = 4) :
    ∃ aux, Auxiliary.unpack [b0, b1, b2, b3] = .ok aux ∧
      Auxiliary.pack aux l = (.ok (), [b0, b1, b2, b3]) := by
  refine ⟨_, rfl, ?_⟩
  rw [auxiliary_pack_ok _ _ (by omega), set4_eq _ _ _ _ _ hl]
  simp only [List.getElem!_cons_zero, List.getElem!_cons_succ]
  rw [byte8_recon b0 h0, byte8_recon b1 h1, byte8_recon b2 h2, byte8_recon b3 h3]

theorem sliceMap_step (pre rest : List Nat) (a b n : Nat)
    (f : List Nat → Except PackingError Unit × List Nat) (s : List Nat)
    (ha : pre.length = a) (hn : b - a = n) (hab : a ≤ b)
    (hf : f (rest.take n) = (.ok (), s)) :
    sliceMap (pre ++ rest) a b f = (.ok (), pre ++ (s ++ rest.drop n)) := by
  unfold sliceMap slice
  rw [List.drop_left' ha, hn, hf]
  rw [List.take_left' ha]
  have hd : (pre ++ rest).drop b = rest.drop n := by
    rw [show b = a + n from by omega, ← ha, ← List.drop_drop, List.drop_left]
  rw [hd]
  dsimp only
  rw [List.append_assoc]

theorem sliceMap_step0 (rest : List Nat) (b : Nat)
    (f : List Nat → Except PackingError Unit × List Nat) (s : List Nat)
    (hf : f (rest.take b) = (.ok (), s)) :
    sliceMap rest 0 b f = (.ok (), s ++ rest.drop b) := by
  have h := sliceMap_step [] rest 0 b b f s rfl rfl (by omega) hf
  simpa using h

/-- `Input::pack` on a 71-byte buffer: the four fixed views are packed into
bytes 0..22, the two other-payloads copied to bytes 22..70, and byte 70 is
left exactly as it was. -/
theorem input_pack_eq (x : Input) (buf : List Nat) (hbuf : buf.length = 71)
    (ho1 : x.other_input_one.length = 24) (ho2 : x.other_input_two.length = 24) :
    Input.pack x buf =
      (.ok (),
        (Numpad.pack x.numpad (buf.take 2)).2 ++
          ((Keypad.pack x.keypad ((buf.drop 2).take 4)).2 ++
            ((Auxiliary.pack x.auxiliary ((buf.drop 6).take 4)).2 ++
              ((AnalogInputs.pack x.analog ((buf.drop 10).take 12)).2 ++
                (x.other_input_one ++ (x.other_input_two ++ buf.drop 70)))))) := by
  have hnp : ¬ (buf.take 2).length < 2 := by rw [List.length_take]; omega
  have hkp : ¬ ((buf.drop 2).take 4).length < 4 := by
    rw [List.length_take, List.length_drop]; omega
  have hax : ¬ ((buf.drop 6).take 4).length < 4 := by
    rw [List.length_take, List.length_drop]; omega
  have han : ((buf.drop 10).take 12).length = 12 := by
    rw [List.length_take, List.length_drop]; omega
  have hs1 : (Numpad.pack x.numpad (buf.take 2)).2.length = 2 := by
    rw [numpad_pack_ok _ _ hnp]
    simp only [List.length_set, List.length_take]
    omega
  have hs2 : (Keypad.pack x.keypad ((buf.drop 2).take 4)).2.length = 4 := by
    rw [keypad_pack_ok _ _ hkp]
    simp only [List.length_set, List.length_take, List.length_drop]
    omega
  have hs3 : (Auxiliary.pack x.auxiliary ((buf.drop 6).take 4)).2.length = 4 := by
    rw [auxiliary_pack_ok _ _ hax]
    simp only [List.length_set, List.length_take, List.length_drop]
    omega
  have hs4 : (AnalogInputs.pack x.analog ((buf.drop 10).take 12)).2.length = 12 := by
    rw [analog_pack_ok _ _ han]
    simp [u16le]
  simp only [Input.pack]
  rw [if_neg (by omega)]
  rw [sliceMap_step0 buf 2 x.numpad.pack (Numpad.pack x.numpad (buf.take 2)).2
    (by rw [numpad_pack_ok _ _ hnp])]
  dsimp only
  rw [sliceMap_step (Numpad.pack x.numpad (buf.take 2)).2 (buf.drop 2) 2 6 4 x.keypad.pack
    (Keypad.pack x.keypad ((buf.drop 2).take 4)).2 hs1 rfl (by omega)
    (by rw [keypad_pack_ok _ _ hkp])]
  dsimp only
  rw [show (buf.drop 2).drop 4 = buf.drop 6 from by rw [List.drop_drop]]
  rw [← List.append_assoc]
  rw [sliceMap_step ((Numpad.pack x.numpad (buf.take 2)).2 ++
      (Keypad.pack x.keypad ((buf.drop 2).take 4)).2) (buf.drop 6) 6 10 4 x.auxiliary.pack
    (Auxiliary.pack x.auxiliary ((buf.drop 6).take 4)).2
    (by rw [List.length_append, hs1, hs2]) rfl (by omega)
    (by rw [auxiliary_pack_ok _ _ hax])]
  dsimp only
  rw [show (buf.drop 6).drop 4 = buf.drop 10 from by rw [List.drop_drop]]
  rw [← List.append_assoc]
  rw [sliceMap_step (((Numpad.pack x.numpad (buf.take 2)).2 ++
      (Keypad.pack x.keypad ((buf.drop 2).take 4)).2) ++
      (Auxiliary.pack x.auxiliary ((buf.drop 6).take 4)).2) (buf.drop 10) 10 22 12
    x.analog.pack (AnalogInputs.pack x.analog ((buf.drop 10).take 12)).2
    (by rw [List.length_append, List.length_append, hs1, hs2, hs3]) rfl (by omega)
    (by
      have := analog_pack_ok x.analog ((buf.drop 10).take 12) han
      rw [this])]
  dsimp only
  rw [show (buf.drop 10).drop 12 = buf.drop 22 from by rw [List.drop_drop]]
  rw [← List.append_assoc]
  rw [show buf.drop 22 = (buf.drop 22).take 24 ++ (buf.drop 22).drop 24 from
    (List.take_append_drop 24 (buf.drop 22)).symm]
  rw [copyRange_append _ _ _ x.other_input_one 22 46
    (by simp only [List.length_append, hs1, hs2, hs3, hs4])
    (by rw [List.length_take, List.length_drop]; omega)]
  rw [show (buf.drop 22).drop 24 = buf.drop 46 from by rw [List.drop_drop]]
  rw [← List.append_assoc]
  rw [show buf.drop 46 = (buf.drop 46).take 24 ++ (buf.drop 46).drop 24 from
    (List.take_append_drop 24 (buf.drop 46)).symm]
  rw [copyRange_append _ _ _ x.other_input_two 46 70
    (by simp only [List.length_append, hs1, hs2, hs3, hs4, ho1])
    (by rw [List.length_take, List.length_drop]; omega)]
  rw [show (buf.drop 46).drop 24 = buf.drop 70 from by rw [List.drop_drop]]
  simp only [List.append_assoc]

theorem slice_zero (l : List Nat) (b : Nat) : slice l 0 b = l.take b := rfl

/-- Pack-then-unpack is the identity on valid `Input` values. -/
theorem input_pack_unpack (x : Input) (buf : List Nat) (hbuf : buf.length = 71)
    (hv : x.Valid) :
    (Input.pack x buf).1 = .ok () ∧ Input.unpack ((Input.pack x buf).2) = .ok x := by
  obtain ⟨hanv, ho1, -, ho2, -⟩ := hv
  have hnp : ¬ (buf.take 2).length < 2 := by rw [List.length_take]; omega
  have htk2 : (buf.take 2).length = 2 := by rw [List.length_take]; omega
  have hkp4 : ((buf.drop 2).take 4).length = 4 := by
    rw [List.length_take, List.length_drop]; omega
  have hax4 : ((buf.drop 6).take 4).length = 4 := by
    rw [List.length_take, List.length_drop]; omega
  have han : ((buf.drop 10).take 12).length = 12 := by
    rw [List.length_take, List.length_drop]; omega
  have hs1 : (Numpad.pack x.numpad (buf.take 2)).2.length = 2 := by
    rw [numpad_pack_ok _ _ hnp]
    simp only [List.length_set, List.length_take]
    omega
  have hs2 : (Keypad.pack x.keypad ((buf.drop 2).take 4)).2.length = 4 := by
    rw [keypad_pack_ok _ _ (by omega)]
    simp only [List.length_set, List.length_take, List.length_drop]
    omega
  have hs3 : (Auxiliary.pack x.auxiliary ((buf.drop 6).take 4)).2.length = 4 := by
    rw [auxiliary_pack_ok _ _ (by omega)]
    simp only [List.length_set, List.length_take, List.length_drop]
    omega
  have hs4 : (AnalogInputs.pack x.analog ((buf.drop 10).take 12)).2.length = 12 := by
    rw [analog_pack_ok _ _ han]
    simp [u16le]
  refine ⟨by rw [input_pack_eq x buf hbuf ho1 ho2], ?_⟩
  rw [input_pack_eq x buf hbuf ho1 ho2]
  simp only [Input.unpack]
  rw [if_neg (by
    simp only [List.length_append, hs1, hs2, hs3, hs4, ho1, ho2, List.length_drop, hbuf]
    omega)]
  have d2 : ((Numpad.pack x.numpad (buf.take 2)).2 ++ ((Keypad.pack x.keypad ((buf.drop 2).take 4)).2 ++ ((Auxiliary.pack x.auxiliary ((buf.drop 6).take 4)).2 ++ ((AnalogInputs.pack x.analog ((buf.drop 10).take 12)).2 ++ (x.other_input_one ++ (x.other_input_two ++ buf.drop 70)))))).drop 2 = (Keypad.pack x.keypad ((buf.drop 2).take 4)).2 ++ ((Auxiliary.pack x.auxiliary ((buf.drop 6).take 4)).2 ++ ((AnalogInputs.pack x.analog ((buf.drop 10).take 12)).2 ++ (x.other_input_one ++ (x.other_input_two ++ buf.drop 70)))) := List.drop_left' hs1
  have d6 : ((Numpad.pack x.numpad (buf.take 2)).2 ++ ((Keypad.pack x.keypad ((buf.drop 2).take 4)).2 ++ ((Auxiliary.pack x.auxiliary ((buf.drop 6).take 4)).2 ++ ((AnalogInputs.pack x.analog ((buf.drop 10).take 12)).2 ++ (x.other_input_one ++ (x.other_input_two ++ buf.drop 70)))))).drop 6 = (Auxiliary.pack x.auxiliary ((buf.drop 6).take 4)).2 ++ ((AnalogInputs.pack x.analog ((buf.drop 10).take 12)).2 ++ (x.other_input_one ++ (x.other_input_two ++ buf.drop 70))) := by
    rw [show (6 : Nat) = 2 + 4 from rfl, ← List.drop_drop, d2, List.drop_left' hs2]
  have d10 : ((Numpad.pack x.numpad (buf.take 2)).2 ++ ((Keypad.pack x.keypad ((buf.drop 2).take 4)).2 ++ ((Auxiliary.pack x.auxiliary ((buf.drop 6).take 4)).2 ++ ((AnalogInputs.pack x.analog ((buf.drop 10).take 12)).2 ++ (x.other_input_one ++ (x.other_input_two ++ buf.drop 70)))))).drop 10 = (AnalogInputs.pack x.analog ((buf.drop 10).take 12)).2 ++ (x.other_input_one ++ (x.other_input_two ++ buf.drop 70)) := by
    rw [show (10 : Nat) = 6 + 4 from rfl, ← List.drop_drop, d6, List.drop_left' hs3]
  have d22 : ((Numpad.pack x.numpad (buf.take 2)).2 ++ ((Keypad.pack x.keypad ((buf.drop 2).take 4)).2 ++ ((Auxiliary.pack x.auxiliary ((buf.drop 6).take 4)).2 ++ ((AnalogInputs.pack x.analog ((buf.drop 10).take 12)).2 ++ (x.other_input_one ++ (x.other_input_two ++ buf.drop 70)))))).drop 22 = x.other_input_one ++ (x.other_input_two ++ buf.drop 70) := by
    rw [show (22 : Nat) = 10 + 12 from rfl, ← List.drop_drop, d10, List.drop_left' hs4]
  have d46 : ((Numpad.pack x.numpad (buf.take 2)).2 ++ ((Keypad.pack x.keypad ((buf.drop 2).take 4)).2 ++ ((Auxiliary.pack x.auxiliary ((buf.drop 6).take 4)).2 ++ ((AnalogInputs.pack x.analog ((buf.drop 10).take 12)).2 ++ (x.other_input_one ++ (x.other_input_two ++ buf.drop 70)))))).drop 46 = x.other_input_two ++ buf.drop 70 := by
    rw [show (46 : Nat) = 22 + 24 from rfl, ← List.drop_drop, d22, List.drop_left' ho1]
  have sl1 : slice ((Numpad.pack x.numpad (buf.take 2)).2 ++ ((Keypad.pack x.keypad ((buf.drop 2).take 4)).2 ++ ((Auxiliary.pack x.auxiliary ((buf.drop 6).take 4)).2 ++ ((AnalogInputs.pack x.analog ((buf.drop 10).take 12)).2 ++ (x.other_input_one ++ (x.other_input_two ++ buf.drop 70)))))) 0 2 = (Numpad.pack x.numpad (buf.take 2)).2 := by
    rw [slice_zero, List.take_left' hs1]
  have sl2 : slice ((Numpad.pack x.numpad (buf.take 2)).2 ++ ((Keypad.pack x.keypad ((buf.drop 2).take 4)).2 ++ ((Auxiliary.pack x.auxiliary ((buf.drop 6).take 4)).2 ++ ((AnalogInputs.pack x.analog ((buf.drop 10).take 12)).2 ++ (x.other_input_one ++ (x.other_input_two ++ buf.drop 70)))))) 2 6 = (Keypad.pack x.keypad ((buf.drop 2).take 4)).2 := by
    unfold slice
    rw [d2, show (6 : Nat) - 2 = 4 from rfl, List.take_left' hs2]
  have sl3 : slice ((Numpad.pack x.numpad (buf.take 2)).2 ++ ((Keypad.pack x.keypad ((buf.drop 2).take 4)).2 ++ ((Auxiliary.pack x.auxiliary ((buf.drop 6).take 4)).2 ++ ((AnalogInputs.pack x.analog ((buf.drop 10).take 12)).2 ++ (x.other_input_one ++ (x.other_input_two ++ buf.drop 70)))))) 6 10 = (Auxiliary.pack x.auxiliary ((buf.drop 6).take 4)).2 := by
    unfold slice
    rw [d6, show (10 : Nat) - 6 = 4 from rfl, List.take_left' hs3]
  have sl4 : slice ((Numpad.pack x.numpad (buf.take 2)).2 ++ ((Keypad.pack x.keypad ((buf.drop 2).take 4)).2 ++ ((Auxiliary.pack x.auxiliary ((buf.drop 6).take 4)).2 ++ ((AnalogInputs.pack x.analog ((buf.drop 10).take 12)).2 ++ (x.other_input_one ++ (x.other_input_two ++ buf.drop 70)))))) 10 22 = (AnalogInputs.pack x.analog ((buf.drop 10).take 12)).2 := by
    unfold slice
    rw [d10, show (22 : Nat) - 10 = 12 from rfl, List.take_left' hs4]
  have sl5 : slice ((Numpad.pack x.numpad (buf.take 2)).2 ++ ((Keypad.pack x.keypad ((buf.drop 2).take 4)).2 ++ ((Auxiliary.pack x.auxiliary ((buf.drop 6).take 4)).2 ++ ((AnalogInputs.pack x.analog ((buf.drop 10).take 12)).2 ++ (x.other_input_one ++ (x.other_input_two ++ buf.drop 70)))))) 22 46 = x.other_input_one := by
    unfold slice
    rw [d22, show (46 : Nat) - 22 = 24 from rfl, List.take_left' ho1]
  have sl6 : slice ((Numpad.pack x.numpad (buf.take 2)).2 ++ ((Keypad.pack x.keypad ((buf.drop 2).take 4)).2 ++ ((Auxiliary.pack x.auxiliary ((buf.drop 6).take 4)).2 ++ ((AnalogInputs.pack x.analog ((buf.drop 10).take 12)).2 ++ (x.other_input_one ++ (x.other_input_two ++ buf.drop 70)))))) 46 70 = x.other_input_two := by
    unfold slice
    rw [d46, show (70 : Nat) - 46 = 24 from rfl, List.take_left' ho2]
  rw [sl1, sl2, sl3, sl4, sl5, sl6]
  rw [numpad_unpack_pack x.numpad (buf.take 2) htk2]
  rw [keypad_unpack_pack x.keypad _ hkp4]
  rw [auxiliary_unpack_pack x.auxiliary _ hax4]
  rw [analog_unpack_pack x.analog _ han hanv]

theorem input_pack_drop70 (x : Input) (buf : List Nat) (hbuf : buf.length = 71)
    (ho1 : x.other_input_one.length = 24) (ho2 : x.other_input_two.length = 24) :
    ((Input.pack x buf).2).drop 70 = buf.drop 70 := by
  have hs1 : ((Numpad.pack x.numpad (buf.take 2)).2).length = 2 := by
    rw [numpad_pack_ok _ _ (by rw [List.length_take]; omega)]
    simp only [List.length_set, List.length_take]
    omega
  have hs2 : ((Keypad.pack x.keypad ((buf.drop 2).take 4)).2).length = 4 := by
    rw [keypad_pack_ok _ _ (by rw [List.length_take, List.length_drop]; omega)]
    simp only [List.length_set, List.length_take, List.length_drop]
    omega
  have hs3 : ((Auxiliary.pack x.auxiliary ((buf.drop 6).take 4)).2).length = 4 := by
    rw [auxiliary_pack_ok _ _ (by rw [List.length_take, List.length_drop]; omega)]
    simp only [List.length_set, List.length_take, List.length_drop]
    omega
  have hs4 : ((AnalogInputs.pack x.analog ((buf.drop 10).take 12)).2).length = 12 := by
    rw [analog_pack_ok _ _ (by rw [List.length_take, List.length_drop]; omega)]
    simp [u16le]
  rw [input_pack_eq x buf hbuf ho1 ho2]
  dsimp only
  simp only [← List.append_assoc]
  have hG :
      ((((((Numpad.pack x.numpad (buf.take 2)).2 ++
              (Keypad.pack x.keypad ((buf.drop 2).take 4)).2) ++
            (Auxiliary.pack x.auxiliary ((buf.drop 6).take 4)).2) ++
          (AnalogInputs.pack x.analog ((buf.drop 10).take 12)).2) ++
        x.other_input_one) ++ x.other_input_two).length = 70 := by
    simp only [List.length_append, hs1, hs2, hs3, hs4, ho1, ho2]
  rw [List.drop_left' hG]

theorem input_unpack_pack (buf : List Nat) (hbuf : buf.length = 71)
    (hlt : ∀ i, i < 71 → buf[i]! < 256)
    (hp1 : buf[1]! &&& 63 = 0) (hp5 : buf[5]! &&& 7 = 0) (h70 : buf[70]! = 0) :
    ∃ x, Input.unpack buf = .ok x ∧
      Input.pack x (List.replicate 71 0) = (.ok (), buf) := by
  have s01 : slice buf 0 2 = [buf[0]!, buf[1]!] := by
    rw [slice_cons buf 0 2 (by omega) (by omega),
      slice_cons buf 1 2 (by omega) (by omega),
      slice_nil buf 2 2 (by omega)]
  have s26 : slice buf 2 6 = [buf[2]!, buf[3]!, buf[4]!, buf[5]!] := by
    rw [slice_cons buf 2 6 (by omega) (by omega),
      slice_cons buf 3 6 (by omega) (by omega),
      slice_cons buf 4 6 (by omega) (by omega),
      slice_cons buf 5 6 (by omega) (by omega),
      slice_nil buf 6 6 (by omega)]
  have s610 : slice buf 6 10 = [buf[6]!, buf[7]!, buf[8]!, buf[9]!] := by
    rw [slice_cons buf 6 10 (by omega) (by omega),
      slice_cons buf 7 10 (by omega) (by omega),
      slice_cons buf 8 10 (by omega) (by omega),
      slice_cons buf 9 10 (by omega) (by omega),
      slice_nil buf 10 10 (by omega)]
  have s1022 : slice buf 10 22 = [buf[10]!, buf[11]!, buf[12]!, buf[13]!, buf[14]!, buf[15]!, buf[16]!, buf[17]!, buf[18]!, buf[19]!, buf[20]!, buf[21]!] := by
    rw [slice_cons buf 10 22 (by omega) (by omega),
      slice_cons buf 11 22 (by omega) (by omega),
      slice_cons buf 12 22 (by omega) (by omega),
      slice_cons buf 13 22 (by omega) (by omega),
      slice_cons buf 14 22 (by omega) (by omega),
      slice_cons buf 15 22 (by omega) (by omega),
      slice_cons buf 16 22 (by omega) (by omega),
      slice_cons buf 17 22 (by omega) (by omega),
      slice_cons buf 18 22 (by omega) (by omega),
      slice_cons buf 19 22 (by omega) (by omega),
      slice_cons buf 20 22 (by omega) (by omega),
      slice_cons buf 21 22 (by omega) (by omega),
      slice_nil buf 22 22 (by omega)]
  obtain ⟨np, hnpU, hnpP⟩ := numpad_repack (buf[0]!) (buf[1]!)
    ((List.replicate 71 0 : List Nat).take 2) (hlt 0 (by omega)) (hlt 1 (by omega)) hp1 rfl
  obtain ⟨kp, hkpU, hkpP⟩ := keypad_repack (buf[2]!) (buf[3]!) (buf[4]!) (buf[5]!)
    (((List.replicate 71 0 : List Nat).drop 2).take 4) (hlt 2 (by omega)) (hlt 3 (by omega))
    (hlt 4 (by omega)) (hlt 5 (by omega)) hp5 rfl
  obtain ⟨ax, haxU, haxP⟩ := auxiliary_repack (buf[6]!) (buf[7]!) (buf[8]!) (buf[9]!)
    (((List.replicate 71 0 : List Nat).drop 6).take 4) (hlt 6 (by omega)) (hlt 7 (by omega))
    (hlt 8 (by omega)) (hlt 9 (by omega)) rfl
  obtain ⟨an, hanU, hanP⟩ := analog_repack (buf[10]!) (buf[11]!) (buf[12]!) (buf[13]!) (buf[14]!) (buf[15]!) (buf[16]!) (buf[17]!) (buf[18]!) (buf[19]!) (buf[20]!) (buf[21]!)
    (((List.replicate 71 0 : List Nat).drop 10).take 12)
    ⟨hlt 10 (by omega), hlt 11 (by omega), hlt 12 (by omega), hlt 13 (by omega), hlt 14 (by omega), hlt 15 (by omega), hlt 16 (by omega), hlt 17 (by omega), hlt 18 (by omega), hlt 19 (by omega), hlt 20 (by omega), hlt 21 (by omega)⟩ rfl
  refine ⟨⟨np, kp, ax, an, slice buf 22 46, slice buf 46 70⟩, ?_, ?_⟩
  case _ =>
    simp only [Input.unpack]
    rw [if_neg (by omega), s01, s26, s610, s1022, hnpU, hkpU, haxU, hanU]
  case _ =>
    have ho1 : (slice buf 22 46).length = 24 := by
      simp only [slice, List.length_take, List.length_drop]
      omega
    have ho2 : (slice buf 46 70).length = 24 := by
      simp only [slice, List.length_take, List.length_drop]
      omega
    rw [input_pack_eq _ (List.replicate 71 0) rfl ho1 ho2]
    dsimp only
    rw [hnpP, hkpP, haxP, hanP]
    dsimp only
    have hd70 : buf.drop 70 = [buf[70]!] := by
      rw [getElem!_pos buf 70 (by omega),
        List.drop_eq_getElem_cons (show (70 : Nat) < buf.length by omega),
        List.drop_eq_nil_of_le (show buf.length ≤ 70 + 1 by omega)]
    have hfd2 : (List.replicate 71 0 : List Nat).drop 70 = buf.drop 70 := by
      rw [hd70, h70]
      rfl
    rw [hfd2, ← s01, ← s26, ← s610, ← s1022, slice_append_drop buf 46 70 (by omega),
      slice_append_drop buf 22 46 (by omega), slice_append_drop buf 10 22 (by omega),
      slice_append_drop buf 6 10 (by omega), slice_append_drop buf 2 6 (by omega),
      slice_append_drop buf 0 2 (by omega)]
    rfl

/-- C1 (corrected): on a 71-byte buffer, `Input::pack` succeeds for every
type-valid input and pack-then-unpack returns exactly the packed value, but
pack writes only bytes 0..69 and leaves byte 70 of the buffer untouched
rather than filling the declared 71 bytes; consequently unpack-then-pack
into a fresh zeroed 71-byte buffer reproduces the original buffer only when
its bytes fit in a u8, the padding bits of the flag bytes are zero (the low
six bits of byte 1 and the low three bits of byte 5), and byte 70 is zero —
not for every 71-byte buffer on which unpack succeeds. -/
theorem input_roundtrip_spec (x : Input) (buf buf2 : List Nat)
    (hbuf : buf.length = 71) (hv : x.Valid) (hbuf2 : buf2.length = 71)
    (hlt : ∀ i, i < 71 → buf2[i]! < 256) (hp1 : buf2[1]! &&& 63 = 0)
    (hp5 : buf2[5]! &&& 7 = 0) (h70 : buf2[70]! = 0) :
    ((Input.pack x buf).1 = .ok () ∧ Input.unpack ((Input.pack x buf).2) = .ok x ∧
      ((Input.pack x buf).2).drop 70 = buf.drop 70) ∧
    ∃ y, Input.unpack buf2 = .ok y ∧
      Input.pack y (List.replicate 71 0) = (.ok (), buf2) := by
  obtain ⟨h1, h2⟩ := input_pack_unpack x buf hbuf hv
  exact ⟨⟨h1, h2, input_pack_drop70 x buf hbuf hv.2.1 hv.2.2.2.1⟩,
    input_unpack_pack buf2 hbuf2 hlt hp1 hp5 h70⟩

/-- C1 counterexample: a 71-byte buffer whose last byte is nonzero unpacks
successfully, but packing the unpacked value into a fresh zeroed buffer does
not reproduce it, because `Input::pack` never writes byte 70. -/
theorem input_roundtrip_cex :
    Input.unpack (List.replicate 70 0 ++ [1]) = .ok Input.default ∧
      (Input.pack Input.default (List.replicate 71 0)).2 ≠ List.replicate 70 0 ++ [1] := by
  decide

theorem input_roundtrip_spec_witness :
    (((Input.pack Input.default (List.replicate 71 0)).1 = .ok () ∧
        Input.unpack ((Input.pack Input.default (List.replicate 71 0)).2) =
          .ok Input.default ∧
        ((Input.pack Input.default (List.replicate 71 0)).2).drop 70 =
          (List.replicate 71 0 : List Nat).drop 70) ∧
      ∃ y, Input.unpack (List.replicate 71 0) = .ok y ∧
        Input.pack y (List.replicate 71 0) = (.ok (), (List.replicate 71 0 : List Nat))) :=
  input_roundtrip_spec Input.default (List.replicate 71 0) (List.replicate 71 0) rfl
    (by decide) rfl (by decide) (by decide) (by decide) (by decide)

end PipBoy
